import Mathlib

/-!
Shallow embedding of the caf HTTP micro-framework (Deno/TypeScript):
the response object (src/response.ts), the error interceptor (error.ts),
the request-body accessor (body.ts), the CORS negotiator (src/cors.ts),
the route registry and matcher (api.ts), and the verb-registration
helpers (app.ts, src/router.ts), together with theorems settling the
specification claims about them.

Strings are modeled with Lean `String`, but all character-level
operations (split, trim, case folding, substring search) are defined
here over `String.data` by structural recursion so that every
definition evaluates by `decide`/`rfl` on concrete inputs.
-/

/-! ## Character / string helpers (models of the JS string primitives) -/

/-- Splits a character list at every occurrence of `sep`; like JS
`String#split` with a one-character separator, the empty input yields
one empty group (`''.split(',') == ['']`). -/
def chSplit (sep : Char) : List Char → List (List Char)
  | [] => [[]]
  | c :: cs =>
    let r := chSplit sep cs
    if c = sep then [] :: r
    else
      match r with
      | [] => [[c]]
      | g :: gs => (c :: g) :: gs

/-- Models JS `String#split` with a one-character separator. -/
def strSplit (s : String) (sep : Char) : List String :=
  (chSplit sep s.data).map (fun l => ⟨l⟩)

/-- ASCII lower-casing of one character (models `String#toLowerCase`
on the ASCII range used by header names and HTTP methods). -/
def chLower (c : Char) : Char :=
  if 'A' ≤ c ∧ c ≤ 'Z' then Char.ofNat (c.toNat + 32) else c

/-- ASCII upper-casing of one character (models `String#toUpperCase`). -/
def chUpper (c : Char) : Char :=
  if 'a' ≤ c ∧ c ≤ 'z' then Char.ofNat (c.toNat - 32) else c

/-- Models JS `String#toLowerCase` (ASCII range). -/
def strLower (s : String) : String := ⟨s.data.map chLower⟩

/-- Models JS `String#toUpperCase` (ASCII range). -/
def strUpper (s : String) : String := ⟨s.data.map chUpper⟩

/-- Whitespace test for `String#trim` (ASCII whitespace). -/
def chIsWs (c : Char) : Bool := c = ' ' ∨ c = '\t' ∨ c = '\n' ∨ c = '\r'

/-- Models JS `String#trim` (ASCII whitespace). -/
def strTrim (s : String) : String :=
  ⟨((s.data.dropWhile chIsWs).reverse.dropWhile chIsWs).reverse⟩

/-- Joins a list of strings with a separator; models `Array#join`. -/
def joinSep (sep : String) : List String → String
  | [] => ""
  | [x] => x
  | x :: xs => x ++ sep ++ joinSep sep xs

/-- Decides whether `p` is a leading segment of `l`. -/
def chStarts : List Char → List Char → Bool
  | [], _ => true
  | _ :: _, [] => false
  | p :: ps, c :: cs => p = c && chStarts ps cs

/-- Decides whether `pat` occurs inside `l`; models `String#indexOf(pat) >= 0`. -/
def chHasSub (pat : List Char) : List Char → Bool
  | [] => pat.isEmpty
  | c :: cs => chStarts pat (c :: cs) || chHasSub pat cs

/-- Models `s.indexOf(pat) >= 0` for strings. -/
def strHasSub (s pat : String) : Bool := chHasSub pat.data s.data

/-- Models `s.slice(0, n) == pat` for a literal `pat` of length `n`
(used by `getDataTypeFromContentType`). -/
def strStarts (s pat : String) : Bool := chStarts pat.data s.data

/-! ## JS runtime values

Route handlers and the error interceptor receive arbitrary JS values.
`JSValue` models the dynamic universe the source branches over:
`typeof v == 'object'` holds for plain objects, `null`, and `Error`
instances; `instanceof` checks discriminate the `Error` family.  A
plain object is carried as its `JSON.stringify` rendering. -/

structure HTTPError where
  status : Nat
  message : String
  type : String
deriving DecidableEq, Repr

inductive JSValue where
  | vStr (s : String)
  | vNum (n : Int)
  | vBool (b : Bool)
  | vNull
  | vUndefined
  | vObj (json : String)
  | vErr (msg : String)
  | vHttpErr (e : HTTPError)
deriving DecidableEq, Repr

/-- Exceptions that the embedded operations can raise: an `HTTPError`
thrown by the assertion helpers, or the `TypeError` raised by a WHATWG
`ReadableStreamDefaultController` when `close()`/`enqueue()` is called
after close was already requested. -/
inductive Thrown where
  | http (e : HTTPError)
  | typeError
deriving DecidableEq, Repr

namespace JSValue

/-- JS truthiness of a value. -/
def jsTruthy : JSValue → Bool
  | vStr s => s ≠ ""
  | vNum n => n ≠ 0
  | vBool b => b
  | vNull => false
  | vUndefined => false
  | vObj _ => true
  | vErr _ => true
  | vHttpErr _ => true

/-- Models `String(v)`.  For objects the generic rendering is used; the
claims only exercise the string/number cases. -/
def jsString : JSValue → String
  | vStr s => s
  | vNum n => toString n
  | vBool b => if b then "true" else "false"
  | vNull => "null"
  | vUndefined => "undefined"
  | vObj _ => "[object Object]"
  | vErr m => "Error: " ++ m
  | vHttpErr e => "HTTPError: " ++ e.message

/-- Models `JSON.stringify(v)` for the values the source feeds it
(`typeof v == 'object'`); `Error` instances serialize to `{}` since
their fields are non-enumerable; `HTTPError` carries the assigned
enumerable fields. -/
def jsonStringify : JSValue → String
  | vObj j => j
  | vNull => "null"
  | vErr _ => "{}"
  | vHttpErr e =>
      "\x7b\x22status\x22:" ++ toString e.status ++ ",\x22type\x22:\x22" ++ e.type ++ "\x22\x7d"
  | vStr s => "\x22" ++ s ++ "\x22"
  | vNum n => toString n
  | vBool b => if b then "true" else "false"
  | vUndefined => "undefined"

/-- Models `typeof v == 'object'` (true for plain objects, `null`, and
`Error` instances). -/
def typeofObject : JSValue → Bool
  | vObj _ => true
  | vNull => true
  | vErr _ => true
  | vHttpErr _ => true
  | _ => false

/-- Models the loose comparison `v == ''` on the values reachable in
`getContentTypeFromDataType` (`0 == ''` and `false == ''` hold in JS). -/
def looseEqEmptyStr : JSValue → Bool
  | vStr s => s = ""
  | vNum n => n = 0
  | vBool b => !b
  | _ => false

/-- Models the loose comparison `v == null`. -/
def looseEqNull : JSValue → Bool
  | vNull => true
  | vUndefined => true
  | _ => false

/-- Models the string coercion done by the `Error` constructor on its
message argument (an undefined message yields the empty string). -/
def jsErrMessage : JSValue → String
  | vUndefined => ""
  | v => jsString v

end JSValue

/-- Decidable equality for `Except`, used to evaluate the embedded
fallible operations on concrete inputs. -/
instance {α β : Type} [DecidableEq α] [DecidableEq β] : DecidableEq (Except α β) := fun a b =>
  match a, b with
  | Except.ok x, Except.ok y =>
      if h : x = y then isTrue (by rw [h]) else isFalse (by intro hc; cases hc; exact h rfl)
  | Except.error x, Except.error y =>
      if h : x = y then isTrue (by rw [h]) else isFalse (by intro hc; cases hc; exact h rfl)
  | Except.ok _, Except.error _ => isFalse (by intro hc; cases hc)
  | Except.error _, Except.ok _ => isFalse (by intro hc; cases hc)

/-- Models `sprintf` from the Deno std `fmt/printf` module, restricted
to `%s` substitution; the source pre-converts every argument with
`String(...)`, so `%s` is the reachable specifier. -/
def sprintfAux : List Char → List String → List Char
  | [], _ => []
  | '%' :: 's' :: rest, a :: args => a.data ++ sprintfAux rest args
  | '%' :: 's' :: rest, [] => '%' :: 's' :: sprintfAux rest []
  | c :: rest, args => c :: sprintfAux rest args

/-- Printf-style formatting of a template with stringified arguments. -/
def sprintfFmt (fmt : String) (args : List String) : String :=
  ⟨sprintfAux fmt.data args⟩

/-! ## types.ts helpers -/

/-- Translation of `getContentTypeFromDataType` (types.ts): empty-ish
or null-ish payloads carry no content type, objects are JSON, anything
else is plain text. -/
def getContentTypeFromDataType (data : JSValue) : Option String :=
  if data.looseEqEmptyStr || data.looseEqNull then none
  else if data.typeofObject then some "application/json"
  else some "text/plain"

/-- Result of `getDataTypeFromContentType` (types.ts). -/
structure DataType where
  type : Option String := none
  charset : Option String := none
deriving DecidableEq, Repr

/-- Models the regex capture `/charset=([^;]+)/` over the content-type
string: the first occurrence of `charset=` followed by at least one
non-semicolon character. -/
def findCharset : List Char → Option String
  | [] => none
  | c :: rest =>
    if chStarts "charset=".data (c :: rest) then
      let cap := ((c :: rest).drop 8).takeWhile (fun x => x ≠ ';')
      if cap.isEmpty then findCharset rest else some ⟨cap⟩
    else findCharset rest

/-- Translation of `getDataTypeFromContentType` (types.ts). -/
def getDataTypeFromContentType (contentType : String) : DataType :=
  let charset := findCharset contentType.data
  if strStarts contentType "application/json" then
    { type := some "json", charset := some (charset.getD "utf-8") }
  else if strStarts contentType "application/x-www-form-urlencoded" then
    { type := some "text", charset := some (charset.getD "ascii") }
  else if strStarts contentType "text/" || charset.isSome then
    { type := some "text", charset := charset }
  else ({} : DataType)

/-! ## The response object (src/response.ts)

`CafResponse` carries the status code, the header list (names stored
lower-cased, insertion order kept), the commit flag (`headersSent`,
which doubles as the one-shot `sent` signal), the stream state
(`closeRequested` mirrors the WHATWG controller's close-requested
flag), the enqueued chunks, and the log entries emitted through the
logger collaborator.  Fallible operations return the new state paired
with an optional thrown value, because a JS `throw` does not roll back
the mutations already performed. -/

inductive LogLevel where
  | debug | warn | error
deriving DecidableEq, Repr

structure LogEntry where
  level : LogLevel
  msg : String := ""
  err : Option JSValue := none
deriving DecidableEq, Repr

structure CafResponse where
  statusCode : Nat := 200
  headers : List (String × String) := []
  headersSent : Bool := false
  finished : Bool := false
  closeRequested : Bool := false
  chunks : List String := []
  logs : List LogEntry := []
deriving DecidableEq, Repr

/-- Values held under a header name, in insertion order. -/
def headerVals (hs : List (String × String)) (k : String) : List String :=
  (hs.filter (fun p => p.1 = k)).map (fun p => p.2)

/-- Models `Headers#get`: all values for the name joined with a comma
and a space, or null when the name is absent. -/
def headersGet (hs : List (String × String)) (k : String) : Option String :=
  match headerVals hs k with
  | [] => none
  | vs => some (joinSep ", " vs)

/-- Drops every entry under a header name. -/
def removeHeader (hs : List (String × String)) (k : String) : List (String × String) :=
  hs.filter (fun p => p.1 ≠ k)

/-- Models `Headers#set`: the first entry under the name is replaced in
place and later duplicates are dropped; an absent name is appended. -/
def setHeaderList : List (String × String) → String → String → List (String × String)
  | [], k, v => [(k, v)]
  | (k', v') :: rest, k, v =>
    if k' = k then (k, v) :: removeHeader rest k
    else (k', v') :: setHeaderList rest k v

namespace CafResponse

/-- Translation of `CafResponse#set`. -/
def set (res : CafResponse) (k v : String) : CafResponse :=
  { res with headers := setHeaderList res.headers (strLower k) v }

/-- Translation of `CafResponse#get` (`this.headersObj.get(k) ?? ''`). -/
def get (res : CafResponse) (k : String) : String :=
  (headersGet res.headers (strLower k)).getD ""

/-- Translation of `CafResponse#append`. -/
def append (res : CafResponse) (k v : String) : CafResponse :=
  { res with headers := res.headers ++ [(strLower k, v)] }

/-- Translation of `CafResponse#type` (the `SHORT_CONTENT_TYPES` table
maps `text` and `json`; any other string is used as given). -/
def type (res : CafResponse) (ct : String) : CafResponse :=
  res.set "Content-Type"
    (if ct = "text" then "text/plain"
     else if ct = "json" then "application/json"
     else ct)

/-- Translation of `CafResponse#status`. -/
def status (res : CafResponse) (s : Nat) : CafResponse :=
  { res with statusCode := s }

/-- Translation of the private `sendHead`: commits the headers and
fires the one-shot `sent` signal on the first call only. -/
def sendHead (res : CafResponse) : CafResponse :=
  if res.headersSent then res else { res with headersSent := true }

/-- Translation of `CafResponse#write`: commits the head, stringifies
the chunk, and enqueues it.  Enqueueing on a controller whose close
was already requested raises a `TypeError` (WHATWG streams). -/
def write (res : CafResponse) (chunk : JSValue) : CafResponse × Option Thrown :=
  let res := sendHead res
  if res.closeRequested then (res, some Thrown.typeError)
  else ({ res with chunks := res.chunks ++ [chunk.jsString] }, none)

/-- First statement of `CafResponse#end`: a repeated call logs a
warning-level diagnostic through the logger collaborator. -/
def warnIfFinished (res : CafResponse) : CafResponse :=
  if res.finished then
    { res with logs := res.logs ++
        [({ level := LogLevel.warn,
            msg := "Called `res.end()` after response was already finished" } : LogEntry)] }
  else res

/-- Tail of `CafResponse#end`: the `streamCtrl.close()` call — which
raises a `TypeError` when close was already requested (WHATWG streams),
so that the remaining statements do not run — followed by the response
debug log and the `finished` flag assignment. -/
def closeAndLog (res : CafResponse) : CafResponse × Option Thrown :=
  if res.closeRequested then (res, some Thrown.typeError)
  else
    let res := { res with closeRequested := true }
    let res := { res with logs := res.logs ++
        [({ level := LogLevel.debug,
            msg := "Sent " ++ toString res.statusCode ++ " response" } : LogEntry)] }
    ({ res with finished := true }, none)

/-- Translation of `CafResponse#end` (named `endRes` because `end` is
a Lean keyword): warns on a repeated call, writes the truthy body
chunk (propagating a stream `TypeError` from `write`) or just commits
the head, then closes the stream and records completion. -/
def endRes (res : CafResponse) (body : Option JSValue) : CafResponse × Option Thrown :=
  let res := warnIfFinished res
  match body with
  | some b =>
      if b.jsTruthy then
        match write res b with
        | (res, some t) => (res, some t)
        | (res, none) => closeAndLog res
      else closeAndLog (sendHead res)
  | none => closeAndLog (sendHead res)

/-- Translation of `CafResponse#error` for an integer status argument
(`Number.isInteger(status)` holds; the non-integer overload delegates
to `handleError`, modeled separately).  Returns the constructed
`HTTPError`, or propagates the stream `TypeError` if the internal
`end` call raises. -/
def error (res : CafResponse) (statusArg : Nat) (message : JSValue) (args : List JSValue) :
    CafResponse × Except Thrown HTTPError :=
  let res := res.status statusArg
  let t := getContentTypeFromDataType message
  let message :=
    match message with
    | JSValue.vStr s => JSValue.vStr (sprintfFmt s (args.map JSValue.jsString))
    | m =>
      if t = some "application/json" then JSValue.vStr m.jsonStringify
      else if t = some "text/plain" then JSValue.vStr m.jsString
      else m
  let res := match t with | some ct => res.type ct | none => res
  match endRes res (some message) with
  | (res, some th) => (res, Except.error th)
  | (res, none) =>
      (res, Except.ok ⟨statusArg, message.jsErrMessage, t.getD "text/plain"⟩)

/-- Translation of `CafResponse#assert`: a falsy condition returns the
response unchanged; a truthy condition runs `error` and throws its
result (or propagates a stream `TypeError` raised inside `error`). -/
def assert (res : CafResponse) (statusArg : Nat) (cond : Bool)
    (message : Option String) (args : List JSValue) : CafResponse × Option Thrown :=
  if !cond then (res, none)
  else
    match error res statusArg (JSValue.vStr (message.getD "")) args with
    | (res, Except.ok e) => (res, some (Thrown.http e))
    | (res, Except.error t) => (res, some t)

/-- Translation of `CafResponse#badRequest`. -/
def badRequest (res : CafResponse) (cond : Bool) (message : Option String)
    (args : List JSValue) : CafResponse × Option Thrown :=
  assert res 400 cond message args

/-- Translation of `CafResponse#unauthorized`. -/
def unauthorized (res : CafResponse) (cond : Bool) (message : Option String)
    (args : List JSValue) : CafResponse × Option Thrown :=
  assert res 401 cond message args

/-- Translation of `CafResponse#forbidden`. -/
def forbidden (res : CafResponse) (cond : Bool) (message : Option String)
    (args : List JSValue) : CafResponse × Option Thrown :=
  assert res 403 cond message args

/-- Translation of `CafResponse#notFound`. -/
def notFound (res : CafResponse) (cond : Bool) (message : Option String)
    (args : List JSValue) : CafResponse × Option Thrown :=
  assert res 404 cond message args

/-- Translation of `CafResponse#conflict`. -/
def conflict (res : CafResponse) (cond : Bool) (message : Option String)
    (args : List JSValue) : CafResponse × Option Thrown :=
  assert res 409 cond message args

/-- Translation of `CafResponse#gone`. -/
def gone (res : CafResponse) (cond : Bool) (message : Option String)
    (args : List JSValue) : CafResponse × Option Thrown :=
  assert res 410 cond message args

/-- Translation of `CafResponse#badType`. -/
def badType (res : CafResponse) (cond : Bool) (message : Option String)
    (args : List JSValue) : CafResponse × Option Thrown :=
  assert res 415 cond message args

end CafResponse

/-! ## The error interceptor (error.ts) -/

/-- Translation of `anythingToError`: normalizes any thrown value into
an `HTTPError` — pass-through for `HTTPError`, 500/text for `Error`
(JS `instanceof` checks run first), 500/json for any remaining value
of object type (`null` included, since `typeof null == 'object'`),
500/text for everything else. -/
def anythingToError : JSValue → HTTPError
  | JSValue.vHttpErr e => e
  | JSValue.vErr m => ⟨500, m, "text"⟩
  | JSValue.vObj j => ⟨500, j, "json"⟩
  | JSValue.vNull => ⟨500, "null", "json"⟩
  | v => ⟨500, v.jsString, "text"⟩

/-- Translation of `handleError`: normalizes the failure, and for a
status above 499 logs the original failure at error level and — only
when the response is not already finished — finalizes it with the
error's status and content type and an empty body (`end('')` commits
the head without writing a chunk). -/
def handleError (err : JSValue) (res : CafResponse) : CafResponse × Except Thrown HTTPError :=
  let herr := anythingToError err
  if herr.status > 499 then
    let res := { res with logs := res.logs ++
        [({ level := LogLevel.error, msg := "route", err := some err } : LogEntry)] }
    if !res.finished then
      match CafResponse.endRes ((res.status herr.status).type herr.type)
          (some (JSValue.vStr "")) with
      | (res, some t) => (res, Except.error t)
      | (res, none) => (res, Except.ok herr)
    else (res, Except.ok herr)
  else (res, Except.ok herr)

/-! ## The CORS negotiator (src/cors.ts) -/

/-- One member of the TS `(string | RegExp)[]` origin allow-list; a
regular expression is carried as its `test` predicate. -/
inductive OriginAtom where
  | str (s : String)
  | regex (test : String → Bool)

/-- The TS `CorsOptions.origin` union `boolean | string | RegExp |
(string | RegExp)[]`. -/
inductive OriginOpt where
  | bool (b : Bool)
  | str (s : String)
  | regex (test : String → Bool)
  | arr (l : List OriginAtom)

/-- The TS `string | string[]` union used by `methods`,
`allowedHeaders` and `exposedHeaders`. -/
inductive StrOrList where
  | str (s : String)
  | arr (l : List String)
deriving DecidableEq, Repr

/-- Models `Array.isArray(x) ? x.join(",") : x`. -/
def StrOrList.joined : StrOrList → String
  | StrOrList.str s => s
  | StrOrList.arr l => joinSep "," l

/-- Models JS truthiness of an optional `string | string[]` value: an
absent value and the empty string are falsy, every array is truthy. -/
def strOrListTruthy : Option StrOrList → Bool
  | none => false
  | some (StrOrList.str s) => s ≠ ""
  | some (StrOrList.arr _) => true

/-- Models `x?.length` being truthy: a non-empty string or array. -/
def StrOrList.hasLength : StrOrList → Bool
  | StrOrList.str s => s ≠ ""
  | StrOrList.arr l => !l.isEmpty

/-- Translation of the TS `CorsOptions` record; absent optional fields
are `none`.  `maxAge` is carried as an integer (`typeof 'number'`). -/
structure CorsOptions where
  origin : Option OriginOpt := none
  methods : Option StrOrList := none
  allowedHeaders : Option StrOrList := none
  exposedHeaders : Option StrOrList := none
  credentials : Option Bool := none
  maxAge : Option Int := none

/-- Translation of `setVaryHeader` (src/cors.ts): reads the current
`Vary` value (empty when unset), keeps `*` untouched, lets a new `*`
override, and otherwise splits on commas, trims and lower-cases the
entries, appends the new name when not already present, and re-joins
with a comma and a space. -/
def setVaryHeader (res : CafResponse) (newValue : String) : CafResponse :=
  let curVal := res.get "Vary"
  if curVal = "*" then res
  else if newValue = "*" then res.set "Vary" "*"
  else
    let values := (strSplit curVal ',').map (fun item => strLower (strTrim item))
    let values :=
      if values.contains (strLower newValue) then values
      else values ++ [strLower newValue]
    res.set "Vary" (joinSep ", " values)

/-- Translation of `isOriginAllowed` restricted to allow-list atoms. -/
def originAtomAllowed (requestOrigin : String) : OriginAtom → Bool
  | OriginAtom.str s => requestOrigin = s
  | OriginAtom.regex test => test requestOrigin

/-- Translation of `isOriginAllowed` (src/cors.ts). -/
def isOriginAllowed (requestOrigin : String) : OriginOpt → Bool
  | OriginOpt.arr l => l.any (originAtomAllowed requestOrigin)
  | OriginOpt.str s => requestOrigin = s
  | OriginOpt.regex test => test requestOrigin
  | OriginOpt.bool b => b

/-- Models JS falsiness of the merged `origin` option (`false` and the
empty string are the falsy inhabitants of its union type). -/
def originFalsy : OriginOpt → Bool
  | OriginOpt.bool b => !b
  | OriginOpt.str s => s = ""
  | _ => false

/-- The `Configure Origin` block of `initCors` (src/cors.ts); the
merge with `DEFAULT_OPTIONS` supplies `origin: "*"` when the option is
absent. -/
def initCorsOrigin (opts : CorsOptions) (origin : String) (res : CafResponse) : CafResponse :=
  let originOpt := opts.origin.getD (OriginOpt.str "*")
  if originFalsy originOpt || originOpt matches OriginOpt.str "*" then
    res.set "Access-Control-Allow-Origin" "*"
  else
    match originOpt with
    | OriginOpt.str s =>
        setVaryHeader (res.set "Access-Control-Allow-Origin" s) "Origin"
    | o =>
        let originAllowed := isOriginAllowed origin o
        setVaryHeader
          (res.set "Access-Control-Allow-Origin" (if originAllowed then origin else "false"))
          "Origin"

/-- The `Configure Credentials` block of `initCors`. -/
def initCorsCredentials (opts : CorsOptions) (res : CafResponse) : CafResponse :=
  if opts.credentials = some true then
    res.set "Access-Control-Allow-Credentials" "true"
  else res

/-- The `Configure Exposed Headers` block of `initCors`. -/
def initCorsExposed (opts : CorsOptions) (res : CafResponse) : CafResponse :=
  match opts.exposedHeaders with
  | some eh => if eh.hasLength then res.set "Access-Control-Expose-Headers" eh.joined else res
  | none => res

/-- Translation of `initCors` (src/cors.ts): its three header blocks
in source order. -/
def initCors (opts : CorsOptions) (origin : String) (res : CafResponse) : CafResponse :=
  initCorsExposed opts (initCorsCredentials opts (initCorsOrigin opts origin res))

/-- The `Configure Methods` block of `handleOptions` (src/cors.ts). -/
def hoMethods (opts : CorsOptions) (res : CafResponse) : CafResponse :=
  res.set "Access-Control-Allow-Methods"
    (opts.methods.getD (StrOrList.str "GET,HEAD,PUT,PATCH,POST,DELETE")).joined

/-- First half of the `Configure Allowed Headers` block of
`handleOptions`: selects the effective allow-list — the configured one
when truthy, else the request's `Access-Control-Request-Headers` value
with the `Vary` update. -/
def hoAllowedSelect (opts : CorsOptions) (neededHeaders : String) (res : CafResponse) :
    StrOrList × CafResponse :=
  if !strOrListTruthy opts.allowedHeaders then
    (StrOrList.str neededHeaders, setVaryHeader res "Access-Control-request-Headers")
  else (opts.allowedHeaders.getD (StrOrList.str ""), res)

/-- Second half of the `Configure Allowed Headers` block: sets the
header when the selected allow-list has a truthy length. -/
def hoAllowedSet (p : StrOrList × CafResponse) : CafResponse :=
  if p.1.hasLength then p.2.set "Access-Control-Allow-Headers" p.1.joined else p.2

/-- The `Configure Max Age` block of `handleOptions`. -/
def hoMaxAge (opts : CorsOptions) (res : CafResponse) : CafResponse :=
  match opts.maxAge with
  | some n =>
      let maxAge := toString n
      if maxAge ≠ "" then res.set "Access-Control-Max-Age" maxAge else res
  | none => res

/-- Translation of `handleOptions` (src/cors.ts): its blocks in source
order, then the finalization `res.status(204).set('Content-Length',
'0').end()`.  The thrown component propagates a stream `TypeError`
from the final `end()` call, which cannot fire on the fresh
per-request response. -/
def handleOptions (opts : CorsOptions) (neededHeaders : String) (res : CafResponse) :
    CafResponse × Option Thrown :=
  CafResponse.endRes
    (((hoMaxAge opts
        (hoAllowedSet (hoAllowedSelect opts neededHeaders (hoMethods opts res)))).status 204).set
      "Content-Length" "0")
    none

/-- Translation of `cors` (src/cors.ts): with options configured and a
truthy `Origin` request header, applies `initCors`, and for an
`OPTIONS` request additionally runs the preflight finalization. -/
def cors (opts : Option CorsOptions) (method : String)
    (reqHeaders : List (String × String)) (res : CafResponse) :
    CafResponse × Option Thrown :=
  let origin := (headersGet reqHeaders "origin").getD ""
  let neededHeaders := (headersGet reqHeaders "access-control-request-headers").getD ""
  match opts with
  | some o =>
      if origin ≠ "" then
        let res := initCors o origin res
        if method = "OPTIONS" then handleOptions o neededHeaders res
        else (res, none)
      else (res, none)
  | none => (res, none)

/-! ## The route registry and matcher (api.ts)

Handlers are opaque values of a type parameter `H`; the matcher only
selects them.  The compiled dynamic pattern of `pathToRegexp` — the
anchored regex `^(\/segment)*$` where a `:name` segment compiles to
the capture `([\w\d\-\._~]+)` — is carried as the list of its segment
descriptors; a literal segment matches its own text (exact for
segments without regex metacharacters, which is how routes are
written), and a parameter segment matches one or more characters of
the class `[\w\d\-\._~]`. -/

inductive Seg where
  | lit (s : String)
  | param (name : String)
deriving DecidableEq, Repr

/-- Characters admitted by the capture class `[\w\d\-\._~]`. -/
def isParamChar (c : Char) : Bool :=
  ('a' ≤ c ∧ c ≤ 'z') ∨ ('A' ≤ c ∧ c ≤ 'Z') ∨ ('0' ≤ c ∧ c ≤ '9')
    ∨ c = '_' ∨ c = '-' ∨ c = '.' ∨ c = '~'

/-- Translation of `pathToRegexp` (api.ts): splits the path on `/`,
skips empty segments, and compiles `:name` segments to captures.  The
`params` list of the source is recovered as the parameter names in
segment order. -/
def pathToSegs (path : String) : List Seg :=
  (strSplit path '/').filterMap fun seg =>
    if seg = "" then none
    else
      match seg.data with
      | ':' :: rest => some (Seg.param ⟨rest⟩)
      | _ => some (Seg.lit seg)

/-- Parameter names of a compiled pattern, in capture order (the
`params` array built by `pathToRegexp`). -/
def segParams (segs : List Seg) : List String :=
  segs.filterMap fun s =>
    match s with
    | Seg.param n => some n
    | Seg.lit _ => none

/-- Matching of one path segment against one compiled descriptor. -/
def segMatch : Seg → String → Bool
  | Seg.lit s, part => part = s
  | Seg.param _, part => part ≠ "" && part.data.all isParamChar

/-- Executes the compiled anchored pattern against a path, returning
the parameter bindings in capture order (the assignments
`params[p] = match[i + 1]` of `matchRoute`) or `none` when the regex
rejects. -/
def matchSegs (segs : List Seg) (path : String) : Option (List (String × String)) :=
  let rec go : List Seg → List String → Option (List (String × String))
    | [], [] => some []
    | s :: ss, p :: ps =>
        if segMatch s p then
          (go ss ps).map fun bs =>
            match s with
            | Seg.param n => (n, p) :: bs
            | Seg.lit _ => bs
        else none
    | _, _ => none
  match strSplit path '/' with
  | "" :: parts => go segs parts
  | _ => none

/-- A compiled dynamic route: the pattern descriptors and the handler
(the source also stores the `params` array, recovered here by
`segParams`). -/
structure DynRoute (H : Type) where
  pattern : List Seg
  handler : H
deriving DecidableEq, Repr

/-- The `API` route table: the duplicate-check key set `routes`, the
exact-match table `static` keyed by `"METHOD path"`, the per-method
dynamic lists in registration order, and the optional fallback. -/
structure API (H : Type) where
  routes : List String := []
  staticR : List (String × H) := []
  dynamic : List (String × List (DynRoute H)) := []
  fallbackRoute : Option H := none
deriving DecidableEq, Repr

/-- Record lookup (JS object property access) on an association list. -/
def recordGet {α : Type} : List (String × α) → String → Option α
  | [], _ => none
  | (k, v) :: rest, key => if k = key then some v else recordGet rest key

/-- Record insertion for a fresh-or-replaced key. -/
def recordSet {α : Type} : List (String × α) → String → α → List (String × α)
  | [], key, v => [(key, v)]
  | (k, w) :: rest, key, v =>
      if k = key then (key, v) :: rest else (k, w) :: recordSet rest key v

namespace API

/-- Translation of `API#matchRoute`: exact-match lookup on the static
table first; else the first dynamic pattern of the method (in
registration order) that accepts the path, with its captured
bindings; else the fallback route (with no bindings); else no match. -/
def matchRoute {H : Type} (api : API H) (method path : String) :
    Option (H × List (String × String)) :=
  let route := method ++ " " ++ path
  match recordGet api.staticR route with
  | some h => some (h, [])
  | none =>
    match ((recordGet api.dynamic method).getD []).findSome?
        (fun r => (matchSegs r.pattern path).map fun bs => (r.handler, bs)) with
    | some x => some x
    | none => api.fallbackRoute.map fun h => (h, [])

/-- Translation of `API#setFallbackRoute`: asserts that no fallback is
registered yet (the handler-is-a-function assertion is enforced by
typing). -/
def setFallbackRoute {H : Type} (api : API H) (handler : H) : Except String (API H) :=
  if api.fallbackRoute.isSome then
    Except.error "Route for 'ALL' is already defined"
  else Except.ok { api with fallbackRoute := some handler }

/-- Translation of `API#addEndpoint`: upper-cases the method, asserts
the `"METHOD path"` key is not yet registered, then stores the route
in the static table when the path has no `/:` and no `*`, and in the
method's dynamic list otherwise. -/
def addEndpoint {H : Type} (api : API H) (method path : String) (handler : H) :
    Except String (API H) :=
  let m := strUpper method
  let route := m ++ " " ++ path
  if api.routes.contains route then
    Except.error ("Route for '" ++ route ++ "' is already defined")
  else
    let api := { api with routes := api.routes ++ [route] }
    if !strHasSub path "/:" && !strHasSub path "*" then
      Except.ok { api with staticR := api.staticR ++ [(route, handler)] }
    else
      let l := (recordGet api.dynamic m).getD []
      Except.ok { api with
        dynamic := recordSet api.dynamic m (l ++ [⟨pathToSegs path, handler⟩]) }

end API

/-! ## Verb-registration helpers (app.ts and src/router.ts) -/

namespace App

/-- Translation of `App#post`: registers under method `POST`. -/
def post {H : Type} (api : API H) (path : String) (handler : H) : Except String (API H) :=
  API.addEndpoint api "POST" path handler

/-- Translation of `App#put`: the source passes the literal `'POST'`
to `addEndpoint`. -/
def put {H : Type} (api : API H) (path : String) (handler : H) : Except String (API H) :=
  API.addEndpoint api "POST" path handler

/-- Translation of `App#patch`: the source passes the literal `'POST'`. -/
def patch {H : Type} (api : API H) (path : String) (handler : H) : Except String (API H) :=
  API.addEndpoint api "POST" path handler

/-- Translation of `App#get`: the source passes the literal `'POST'`. -/
def get {H : Type} (api : API H) (path : String) (handler : H) : Except String (API H) :=
  API.addEndpoint api "POST" path handler

/-- Translation of `App#del`: the source passes the literal `'POST'`. -/
def del {H : Type} (api : API H) (path : String) (handler : H) : Except String (API H) :=
  API.addEndpoint api "POST" path handler

end App

/-- A route record pushed by the `Router` collector (src/router.ts). -/
structure RouterRoute (H : Type) where
  method : String
  path : String
  handler : H
  all : Bool := false
deriving DecidableEq, Repr

namespace Router

/-- Translation of `Router#post`. -/
def post {H : Type} (routes : List (RouterRoute H)) (path : String) (handler : H) :
    List (RouterRoute H) :=
  routes ++ [{ path := path, method := "POST", handler := handler }]

/-- Translation of `Router#put`: the source pushes `method: 'POST'`. -/
def put {H : Type} (routes : List (RouterRoute H)) (path : String) (handler : H) :
    List (RouterRoute H) :=
  routes ++ [{ path := path, method := "POST", handler := handler }]

/-- Translation of `Router#del`: the source pushes `method: 'POST'`. -/
def del {H : Type} (routes : List (RouterRoute H)) (path : String) (handler : H) :
    List (RouterRoute H) :=
  routes ++ [{ path := path, method := "POST", handler := handler }]

/-- Translation of `Router#patch`: the source pushes `method: 'POST'`. -/
def patch {H : Type} (routes : List (RouterRoute H)) (path : String) (handler : H) :
    List (RouterRoute H) :=
  routes ++ [{ path := path, method := "POST", handler := handler }]

/-- Translation of `Router#options`: the source pushes `method: 'POST'`. -/
def options {H : Type} (routes : List (RouterRoute H)) (path : String) (handler : H) :
    List (RouterRoute H) :=
  routes ++ [{ path := path, method := "POST", handler := handler }]

/-- Translation of `Router#get`: the source pushes `method: 'POST'`. -/
def get {H : Type} (routes : List (RouterRoute H)) (path : String) (handler : H) :
    List (RouterRoute H) :=
  routes ++ [{ path := path, method := "POST", handler := handler }]

end Router

/-! ## The request-body accessor (body.ts) -/

/-- The underlying transport body (the fetch `Body` collaborator):
each accessor either yields a value or rejects with a parse/decode
exception carried as a message. -/
structure RawBody where
  jsonResult : Except String JSValue
  textResult : Except String String
  bufResult : Except String (List Nat)
deriving Repr

/-- Translation of the `RequestBody` state: the body kind and charset
derived once from the Content-Type header, and the optional transport
body. -/
structure RequestBody where
  type : Option String := none
  charset : Option String := none
  reqBody : Option RawBody := none

/-- Translation of the `RequestBody` constructor. -/
def RequestBody.make (contentType : String) (reqBody : Option RawBody) : RequestBody :=
  let t := getDataTypeFromContentType contentType
  { type := t.type, charset := t.charset, reqBody := reqBody }

/-- The parsed result universe of `RequestBody#parse`: a JS value,
a string, or a raw buffer (`undefined` when no transport body). -/
inductive ParsedBody where
  | vJson (v : JSValue)
  | vText (s : String)
  | vBuf (b : List Nat)
  | vUndef
deriving DecidableEq, Repr

/-- The try-block body of `RequestBody#parse`: dispatches on the body
kind to the matching transport accessor (`?.` yields undefined when
the transport body is absent). -/
def parseInner (rb : RequestBody) : Except String ParsedBody :=
  if rb.type = some "json" then
    match rb.reqBody with
    | some b => b.jsonResult.map ParsedBody.vJson
    | none => Except.ok ParsedBody.vUndef
  else if rb.type = some "text" then
    match rb.reqBody with
    | some b => b.textResult.map ParsedBody.vText
    | none => Except.ok ParsedBody.vUndef
  else
    match rb.reqBody with
    | some b => b.bufResult.map ParsedBody.vBuf
    | none => Except.ok ParsedBody.vUndef

/-- Translation of `RequestBody#parse`: the try-block result is
returned as-is; any rejection is caught and replaced by
`res.badRequest(true, 'Invalid format')`, whose thrown `HTTPError`
propagates out of `parse` (the catch block has no return, so a normal
return from it would yield undefined). -/
def RequestBody.parse (rb : RequestBody) (res : CafResponse) :
    CafResponse × Except Thrown ParsedBody :=
  match parseInner rb with
  | Except.ok v => (res, Except.ok v)
  | Except.error _ =>
      match CafResponse.badRequest res true (some "Invalid format") [] with
      | (res, some t) => (res, Except.error t)
      | (res, none) => (res, Except.ok ParsedBody.vUndef)

/-! ## The dispatcher entry (api.ts `API#trigger`)

`trigger` builds a fresh response, runs the CORS negotiator, and
returns immediately when the response is already finished — before the
route table is consulted, so no route handler runs.  Otherwise it
matches the route and hands the handler (with its path-parameter
bindings) to the asynchronous dispatch step; the handler invocation
itself is arbitrary user code and is not modeled beyond identifying
which handler would run. -/

def triggerStart {H : Type} (api : API H) (confCors : Option CorsOptions)
    (method path : String) (reqHeaders : List (String × String)) :
    CafResponse × Option (H × List (String × String)) :=
  let res : CafResponse := {}
  let (res, _) := cors confCors method reqHeaders res
  if res.finished then (res, none)
  else (res, api.matchRoute method path)


/-- Invariant of a route table populated only through the `App` and
`Router` verb helpers: every static key and every dynamic list is
registered under method `POST`, and no fallback is set. -/
def postOnly {H : Type} (api : API H) : Prop :=
  (∀ p ∈ api.staticR, ∃ q, p.1 = "POST" ++ " " ++ q)
    ∧ (∀ e ∈ api.dynamic, e.1 = "POST")
    ∧ api.fallbackRoute = none

/-- The parsed entries of the current `Vary` header value: split on
commas, trimmed and lower-cased — the view `setVaryHeader` de-duplicates
against. -/
def varyEntries (res : CafResponse) : List String :=
  (strSplit (res.get "Vary") ',').map (fun item => strLower (strTrim item))

/-! ## Shared lemmas about the embedded operations -/

theorem headerVals_nil (k : String) : headerVals [] k = [] := rfl

theorem headerVals_cons_self (k v : String) (rest : List (String × String)) :
    headerVals ((k, v) :: rest) k = v :: headerVals rest k := by
  simp [headerVals]

theorem headerVals_cons_other (k1 v1 k : String) (rest : List (String × String))
    (h : k1 ≠ k) : headerVals ((k1, v1) :: rest) k = headerVals rest k := by
  simp [headerVals, h]

theorem removeHeader_cons_self (k v : String) (rest : List (String × String)) :
    removeHeader ((k, v) :: rest) k = removeHeader rest k := by
  simp [removeHeader]

theorem removeHeader_cons_other (k1 v1 k : String) (rest : List (String × String))
    (h : k1 ≠ k) : removeHeader ((k1, v1) :: rest) k = (k1, v1) :: removeHeader rest k := by
  simp [removeHeader, h]

theorem headerVals_remove_self (hs : List (String × String)) (k : String) :
    headerVals (removeHeader hs k) k = [] := by
  induction hs with
  | nil => rfl
  | cons p rest ih =>
      obtain ⟨k1, v1⟩ := p
      by_cases h : k1 = k
      · subst h; rw [removeHeader_cons_self]; exact ih
      · rw [removeHeader_cons_other k1 v1 k rest h, headerVals_cons_other k1 v1 k _ h]
        exact ih

theorem headerVals_remove_other (hs : List (String × String)) (k k' : String)
    (h : k' ≠ k) : headerVals (removeHeader hs k) k' = headerVals hs k' := by
  induction hs with
  | nil => rfl
  | cons p rest ih =>
      obtain ⟨k1, v1⟩ := p
      by_cases hp : k1 = k
      · subst hp
        rw [removeHeader_cons_self, headerVals_cons_other k1 v1 k' rest (fun hc => h hc.symm)]
        exact ih
      · rw [removeHeader_cons_other k1 v1 k rest hp]
        by_cases hq : k1 = k'
        · subst hq
          rw [headerVals_cons_self, headerVals_cons_self]
          rw [ih]
        · rw [headerVals_cons_other k1 v1 k' _ hq, headerVals_cons_other k1 v1 k' rest hq]
          exact ih

theorem headerVals_set_self (hs : List (String × String)) (k v : String) :
    headerVals (setHeaderList hs k v) k = [v] := by
  induction hs with
  | nil => simp [setHeaderList, headerVals]
  | cons p rest ih =>
      obtain ⟨k1, v1⟩ := p
      by_cases h : k1 = k
      · subst h
        simp only [setHeaderList, if_pos rfl, if_true]
        rw [headerVals_cons_self, headerVals_remove_self]
      · simp only [setHeaderList, if_neg h]
        rw [headerVals_cons_other k1 v1 k _ h]
        exact ih

theorem headerVals_set_other (hs : List (String × String)) (k v k' : String)
    (h : k' ≠ k) : headerVals (setHeaderList hs k v) k' = headerVals hs k' := by
  induction hs with
  | nil =>
      simp only [setHeaderList]
      rw [headerVals_cons_other k v k' [] (fun hc => h hc.symm)]
  | cons p rest ih =>
      obtain ⟨k1, v1⟩ := p
      by_cases hp : k1 = k
      · subst hp
        simp only [setHeaderList, if_pos rfl, if_true]
        rw [headerVals_cons_other k1 v k' _ (fun hc => h hc.symm),
          headerVals_cons_other k1 v1 k' rest (fun hc => h hc.symm)]
        exact headerVals_remove_other rest k1 k' h
      · simp only [setHeaderList, if_neg hp]
        by_cases hq : k1 = k'
        · subst hq
          rw [headerVals_cons_self, headerVals_cons_self, ih]
        · rw [headerVals_cons_other k1 v1 k' _ hq, headerVals_cons_other k1 v1 k' rest hq]
          exact ih

theorem joinSep_single (sep x : String) : joinSep sep [x] = x := rfl

theorem get_set_self (res : CafResponse) (k k' v : String)
    (h : strLower k' = strLower k) : (res.set k v).get k' = v := by
  simp [CafResponse.set, CafResponse.get, h, headersGet, headerVals_set_self, joinSep_single]

theorem get_set_other (res : CafResponse) (k k' v : String)
    (h : strLower k' ≠ strLower k) : (res.set k v).get k' = res.get k' := by
  simp [CafResponse.set, CafResponse.get, headersGet,
    headerVals_set_other res.headers (strLower k) v (strLower k') h]

theorem set_fields (res : CafResponse) (k v : String) :
    (res.set k v).statusCode = res.statusCode
      ∧ (res.set k v).finished = res.finished
      ∧ (res.set k v).closeRequested = res.closeRequested
      ∧ (res.set k v).chunks = res.chunks
      ∧ (res.set k v).headersSent = res.headersSent :=
  ⟨rfl, rfl, rfl, rfl, rfl⟩

theorem status_fields (res : CafResponse) (s : Nat) :
    (res.status s).statusCode = s
      ∧ (res.status s).headers = res.headers
      ∧ (res.status s).finished = res.finished
      ∧ (res.status s).closeRequested = res.closeRequested
      ∧ (res.status s).chunks = res.chunks :=
  ⟨rfl, rfl, rfl, rfl, rfl⟩

theorem CafResponse.warnIfFinished_fields (res : CafResponse) :
    (CafResponse.warnIfFinished res).statusCode = res.statusCode
      ∧ (CafResponse.warnIfFinished res).headers = res.headers
      ∧ (CafResponse.warnIfFinished res).headersSent = res.headersSent
      ∧ (CafResponse.warnIfFinished res).finished = res.finished
      ∧ (CafResponse.warnIfFinished res).closeRequested = res.closeRequested
      ∧ (CafResponse.warnIfFinished res).chunks = res.chunks := by
  unfold CafResponse.warnIfFinished
  split <;> exact ⟨rfl, rfl, rfl, rfl, rfl, rfl⟩

theorem sendHead_fields (res : CafResponse) :
    (CafResponse.sendHead res).statusCode = res.statusCode
      ∧ (CafResponse.sendHead res).headers = res.headers
      ∧ (CafResponse.sendHead res).finished = res.finished
      ∧ (CafResponse.sendHead res).closeRequested = res.closeRequested
      ∧ (CafResponse.sendHead res).chunks = res.chunks
      ∧ (CafResponse.sendHead res).logs = res.logs := by
  unfold CafResponse.sendHead
  split <;> exact ⟨rfl, rfl, rfl, rfl, rfl, rfl⟩

theorem write_eq (res : CafResponse) (chunk : JSValue)
    (hc : res.closeRequested = false) :
    CafResponse.write res chunk =
      ({ CafResponse.sendHead res with
          chunks := (CafResponse.sendHead res).chunks ++ [chunk.jsString] }, none) := by
  unfold CafResponse.write
  rw [if_neg (by rw [(sendHead_fields res).2.2.2.1, hc]; exact Bool.false_ne_true)]

theorem CafResponse.closeAndLog_ok (res : CafResponse) (hc : res.closeRequested = false) :
    (CafResponse.closeAndLog res).2 = none
      ∧ (CafResponse.closeAndLog res).1.finished = true
      ∧ (CafResponse.closeAndLog res).1.closeRequested = true
      ∧ (CafResponse.closeAndLog res).1.statusCode = res.statusCode
      ∧ (CafResponse.closeAndLog res).1.headers = res.headers
      ∧ (CafResponse.closeAndLog res).1.chunks = res.chunks := by
  unfold CafResponse.closeAndLog
  rw [if_neg (by rw [hc]; exact Bool.false_ne_true)]
  exact ⟨rfl, rfl, rfl, rfl, rfl, rfl⟩

/-- Characterization of `endRes` on a stream whose close was not yet
requested: it never throws, closes the stream, marks the response
finished, appends the truthy body chunk if one was given, and leaves
status, headers, and earlier chunks alone. -/
theorem endRes_ok (res : CafResponse) (b : Option JSValue)
    (hc : res.closeRequested = false) :
    (CafResponse.endRes res b).2 = none
      ∧ (CafResponse.endRes res b).1.finished = true
      ∧ (CafResponse.endRes res b).1.closeRequested = true
      ∧ (CafResponse.endRes res b).1.statusCode = res.statusCode
      ∧ (CafResponse.endRes res b).1.headers = res.headers
      ∧ (CafResponse.endRes res b).1.chunks = res.chunks ++
          (match b with
           | some x => if x.jsTruthy then [x.jsString] else []
           | none => []) := by
  have hw := CafResponse.warnIfFinished_fields res
  have hwc : (CafResponse.warnIfFinished res).closeRequested = false := by
    rw [hw.2.2.2.2.1, hc]
  have hs := sendHead_fields (CafResponse.warnIfFinished res)
  have hsc : (CafResponse.sendHead (CafResponse.warnIfFinished res)).closeRequested = false := by
    rw [hs.2.2.2.1, hwc]
  cases b with
  | none =>
      have hcl := CafResponse.closeAndLog_ok (CafResponse.sendHead (CafResponse.warnIfFinished res)) hsc
      simp only [CafResponse.endRes]
      refine ⟨hcl.1, hcl.2.1, hcl.2.2.1, ?_, ?_, ?_⟩
      · rw [hcl.2.2.2.1, hs.1, hw.1]
      · rw [hcl.2.2.2.2.1, hs.2.1, hw.2.1]
      · rw [hcl.2.2.2.2.2, hs.2.2.2.2.1, hw.2.2.2.2.2, List.append_nil]
  | some x =>
      by_cases ht : x.jsTruthy
      · have hwr := write_eq (CafResponse.warnIfFinished res) x hwc
        have hmc : ({ CafResponse.sendHead (CafResponse.warnIfFinished res) with
            chunks := (CafResponse.sendHead (CafResponse.warnIfFinished res)).chunks
              ++ [x.jsString] } : CafResponse).closeRequested = false := hsc
        have hcl := CafResponse.closeAndLog_ok _ hmc
        simp only [CafResponse.endRes, ht, if_true, hwr]
        refine ⟨hcl.1, hcl.2.1, hcl.2.2.1, ?_, ?_, ?_⟩
        · rw [hcl.2.2.2.1]
          show (CafResponse.sendHead (CafResponse.warnIfFinished res)).statusCode = res.statusCode
          rw [hs.1, hw.1]
        · rw [hcl.2.2.2.2.1]
          show (CafResponse.sendHead (CafResponse.warnIfFinished res)).headers = res.headers
          rw [hs.2.1, hw.2.1]
        · rw [hcl.2.2.2.2.2]
          show (CafResponse.sendHead (CafResponse.warnIfFinished res)).chunks ++ [x.jsString]
              = res.chunks ++ [x.jsString]
          rw [hs.2.2.2.2.1, hw.2.2.2.2.2]
      · have hcl := CafResponse.closeAndLog_ok (CafResponse.sendHead (CafResponse.warnIfFinished res)) hsc
        simp only [CafResponse.endRes, ht, if_false, Bool.false_eq_true]
        refine ⟨hcl.1, hcl.2.1, hcl.2.2.1, ?_, ?_, ?_⟩
        · rw [hcl.2.2.2.1, hs.1, hw.1]
        · rw [hcl.2.2.2.2.1, hs.2.1, hw.2.1]
        · rw [hcl.2.2.2.2.2, hs.2.2.2.2.1, hw.2.2.2.2.2]
          simp [ht]

theorem pair_eta {α β : Type} (p : α × β) (x : β) (h : p.2 = x) : p = (p.1, x) := by
  rw [← h]

/-- Characterization of `error` called with an integer status and a
string message template on an unclosed response: the status is set,
the response is finalized with the printf-formatted message as only
appended chunk (no chunk when the formatted message is empty, since an
empty body is falsy in `end`), and the constructed `HTTPError` carries
the status, the formatted message, and `text/plain`. -/
theorem error_str_spec (res : CafResponse) (st : Nat) (m : String) (args : List JSValue)
    (hc : res.closeRequested = false) :
    (CafResponse.error res st (JSValue.vStr m) args).2
        = Except.ok ⟨st, sprintfFmt m (args.map JSValue.jsString), "text/plain"⟩
      ∧ (CafResponse.error res st (JSValue.vStr m) args).1.statusCode = st
      ∧ (CafResponse.error res st (JSValue.vStr m) args).1.finished = true
      ∧ (CafResponse.error res st (JSValue.vStr m) args).1.chunks = res.chunks ++
          (if sprintfFmt m (args.map JSValue.jsString) = "" then []
           else [sprintfFmt m (args.map JSValue.jsString)]) := by
  by_cases hm : m = ""
  · have hts : getContentTypeFromDataType (JSValue.vStr m) = none := by
      simp [getContentTypeFromDataType, JSValue.looseEqEmptyStr, hm]
    have hmc : (res.status st).closeRequested = false := hc
    have he := endRes_ok (res.status st)
      (some (JSValue.vStr (sprintfFmt m (args.map JSValue.jsString)))) hmc
    have hfmt : sprintfFmt m (args.map JSValue.jsString) = "" := by
      rw [hm]; rfl
    simp only [CafResponse.error, hts]
    rw [pair_eta _ none he.1]
    refine ⟨?_, ?_, he.2.1, ?_⟩
    · simp [JSValue.jsErrMessage, JSValue.jsString]
    · rw [he.2.2.2.1]; rfl
    · rw [he.2.2.2.2.2, hfmt]
      simp [JSValue.jsTruthy]
      rfl
  · have hts : getContentTypeFromDataType (JSValue.vStr m) = some "text/plain" := by
      simp [getContentTypeFromDataType, JSValue.looseEqEmptyStr, JSValue.looseEqNull,
        JSValue.typeofObject, hm]
    have hmc : (CafResponse.type (res.status st) "text/plain").closeRequested = false := hc
    have he := endRes_ok (CafResponse.type (res.status st) "text/plain")
      (some (JSValue.vStr (sprintfFmt m (args.map JSValue.jsString)))) hmc
    simp only [CafResponse.error, hts]
    rw [pair_eta _ none he.1]
    refine ⟨?_, ?_, he.2.1, ?_⟩
    · simp [JSValue.jsErrMessage, JSValue.jsString]
    · rw [he.2.2.2.1]; rfl
    · rw [he.2.2.2.2.2]
      show res.chunks ++ _ = res.chunks ++ _
      by_cases hf : sprintfFmt m (args.map JSValue.jsString) = "" <;>
        simp [JSValue.jsTruthy, JSValue.jsString, hf]

/-! ## Claim theorems -/

/-- C1: every assertion helper (generic `assert` and the seven
specialized helpers, which delegate to `assert` with their documented
status) returns the response unchanged and raises nothing when the
condition is false; when the condition is true (on a response whose
stream is not yet closed) it constructs an `HTTPError` carrying the
helper's status, finalizes the response with that status, and throws
the `HTTPError`, aborting further handler execution. -/
theorem claim_assert_helpers (res : CafResponse) (st : Nat) (message : Option String)
    (args : List JSValue) :
    (∀ cond,
      CafResponse.badRequest res cond message args = CafResponse.assert res 400 cond message args
      ∧ CafResponse.unauthorized res cond message args = CafResponse.assert res 401 cond message args
      ∧ CafResponse.forbidden res cond message args = CafResponse.assert res 403 cond message args
      ∧ CafResponse.notFound res cond message args = CafResponse.assert res 404 cond message args
      ∧ CafResponse.conflict res cond message args = CafResponse.assert res 409 cond message args
      ∧ CafResponse.gone res cond message args = CafResponse.assert res 410 cond message args
      ∧ CafResponse.badType res cond message args = CafResponse.assert res 415 cond message args)
    ∧ CafResponse.assert res st false message args = (res, none)
    ∧ (res.closeRequested = false →
        ∃ e res2, CafResponse.assert res st true message args = (res2, some (Thrown.http e))
          ∧ e.status = st
          ∧ res2.statusCode = st
          ∧ res2.finished = true) := by
  refine ⟨fun cond => ⟨rfl, rfl, rfl, rfl, rfl, rfl, rfl⟩, by simp [CafResponse.assert], ?_⟩
  intro hc
  have he := error_str_spec res st (message.getD "") args hc
  refine ⟨⟨st, sprintfFmt (message.getD "") (args.map JSValue.jsString), "text/plain"⟩,
    (CafResponse.error res st (JSValue.vStr (message.getD "")) args).1,
    ?_, rfl, he.2.1, he.2.2.1⟩
  show (match CafResponse.error res st (JSValue.vStr (message.getD "")) args with
    | (res, Except.ok e) => (res, some (Thrown.http e))
    | (res, Except.error t) => (res, some t)) = _
  rw [pair_eta _ _ he.1]

/-- Witness for C1 at the fresh response, status 404, message "gone". -/
theorem claim_assert_helpers_witness :
    CafResponse.assert {} 404 false (some "gone") [] = ({}, none)
      ∧ ∃ e res2, CafResponse.assert {} 404 true (some "gone") [] = (res2, some (Thrown.http e))
          ∧ e.status = 404
          ∧ res2.statusCode = 404
          ∧ res2.finished = true :=
  ⟨(claim_assert_helpers {} 404 (some "gone") []).2.1,
   (claim_assert_helpers {} 404 (some "gone") []).2.2 (by decide)⟩

/-- C4 (code bug): calling `end()` a second time on an already
finished response does log the warning-level diagnostic and performs
no further state change — but it throws: after the warning, `end`
unconditionally calls `streamCtrl.close()` on a controller whose close
was already requested, which raises a `TypeError` under WHATWG stream
semantics, so the second call does not return normally as the
specification states. -/
theorem claim_end_twice_throws :
    (CafResponse.endRes (CafResponse.endRes {} none).1 none).2 = some Thrown.typeError
      ∧ ((CafResponse.endRes (CafResponse.endRes {} none).1 none).1.logs.map LogEntry.level)
          = [LogLevel.debug, LogLevel.warn]
      ∧ (CafResponse.endRes (CafResponse.endRes {} none).1 none).1.statusCode
          = (CafResponse.endRes {} none).1.statusCode
      ∧ (CafResponse.endRes (CafResponse.endRes {} none).1 none).1.headers
          = (CafResponse.endRes {} none).1.headers
      ∧ (CafResponse.endRes (CafResponse.endRes {} none).1 none).1.chunks
          = (CafResponse.endRes {} none).1.chunks
      ∧ (CafResponse.endRes (CafResponse.endRes {} none).1 none).1.finished
          = (CafResponse.endRes {} none).1.finished
      ∧ (CafResponse.endRes (CafResponse.endRes {} none).1 none).1.closeRequested
          = (CafResponse.endRes {} none).1.closeRequested := by
  decide

/-- C5 counterexample: `res.error(500, 'oops')` — an integer status of
500 — finalizes the response with the non-empty body `oops`, while the
claim states the body is empty for every status at or above 500. -/
theorem claim_error_500_counterexample :
    (CafResponse.error {} 500 (JSValue.vStr "oops") []).1.statusCode = 500
      ∧ (CafResponse.error {} 500 (JSValue.vStr "oops") []).1.finished = true
      ∧ (CafResponse.error {} 500 (JSValue.vStr "oops") []).1.chunks = ["oops"]
      ∧ ("oops" :: ([] : List String)) ≠ ([] : List String) := by
  decide

/-- C5 amended: `error` with an integer status — and therefore every
assertion helper — always finalizes the response with the
printf-formatted message as body, for 4xx and for statuses at or above
500 alike (the body is empty only when the formatted message is the
empty string); body suppression for 5xx happens only in the error
interceptor `handleError`, which serves the non-integer-status path. -/
theorem claim_error_body_amended (res : CafResponse) (st : Nat) (m : String)
    (args : List JSValue) (hc : res.closeRequested = false) :
    (CafResponse.error res st (JSValue.vStr m) args).1.statusCode = st
      ∧ (CafResponse.error res st (JSValue.vStr m) args).1.finished = true
      ∧ (CafResponse.error res st (JSValue.vStr m) args).1.chunks = res.chunks ++
          (if sprintfFmt m (args.map JSValue.jsString) = "" then []
           else [sprintfFmt m (args.map JSValue.jsString)])
      ∧ (CafResponse.error res st (JSValue.vStr m) args).2
          = Except.ok ⟨st, sprintfFmt m (args.map JSValue.jsString), "text/plain"⟩ :=
  ⟨(error_str_spec res st m args hc).2.1, (error_str_spec res st m args hc).2.2.1,
   (error_str_spec res st m args hc).2.2.2, (error_str_spec res st m args hc).1⟩

/-- Witness for the amended C5 at status 502 and message template
"bad %s" with argument "gw". -/
theorem claim_error_body_amended_witness :
    (CafResponse.error {} 502 (JSValue.vStr "bad %s") [JSValue.vStr "gw"]).1.statusCode = 502
      ∧ (CafResponse.error {} 502 (JSValue.vStr "bad %s") [JSValue.vStr "gw"]).1.finished = true
      ∧ (CafResponse.error {} 502 (JSValue.vStr "bad %s") [JSValue.vStr "gw"]).1.chunks
          = [] ++ (if sprintfFmt "bad %s" ([JSValue.vStr "gw"].map JSValue.jsString) = "" then []
                   else [sprintfFmt "bad %s" ([JSValue.vStr "gw"].map JSValue.jsString)])
      ∧ (CafResponse.error {} 502 (JSValue.vStr "bad %s") [JSValue.vStr "gw"]).2
          = Except.ok ⟨502, sprintfFmt "bad %s" ([JSValue.vStr "gw"].map JSValue.jsString),
              "text/plain"⟩ :=
  claim_error_body_amended {} 502 "bad %s" [JSValue.vStr "gw"] (by decide)

theorem warnIfFinished_of_unfinished (res : CafResponse) (hf : res.finished = false) :
    CafResponse.warnIfFinished res = res := by
  unfold CafResponse.warnIfFinished
  rw [if_neg]
  rw [hf]
  simp

theorem closeAndLog_logs_mem (res : CafResponse) (x : LogEntry) (hx : x ∈ res.logs) :
    x ∈ (CafResponse.closeAndLog res).1.logs := by
  unfold CafResponse.closeAndLog
  split
  · exact hx
  · exact List.mem_append_left _ hx

theorem get_congr (r1 r2 : CafResponse) (h : r1.headers = r2.headers) (k : String) :
    r1.get k = r2.get k := by
  unfold CafResponse.get
  rw [h]

/-- Reduction of `handleError` on an unfinished, unclosed response
when the normalized status is above 499. -/
theorem handleError_unfinished (v : JSValue) (res : CafResponse)
    (hge : (anythingToError v).status > 499) (hf : res.finished = false)
    (hc : res.closeRequested = false) :
    handleError v res
      = ((CafResponse.endRes
            (CafResponse.type
              (CafResponse.status
                ({ res with logs := res.logs ++
                    [({ level := LogLevel.error, msg := "route", err := some v } : LogEntry)] })
                (anythingToError v).status)
              (anythingToError v).type)
            (some (JSValue.vStr ""))).1,
         Except.ok (anythingToError v)) := by
  simp only [handleError]
  rw [if_pos hge, if_pos (show (!res.finished) = true by rw [hf]; rfl)]
  rw [pair_eta _ none (endRes_ok
    (CafResponse.type
      (CafResponse.status
        ({ res with logs := res.logs ++
            [({ level := LogLevel.error, msg := "route", err := some v } : LogEntry)] })
        (anythingToError v).status)
      (anythingToError v).type)
    (some (JSValue.vStr "")) hc).1]

/-- C6: the error interceptor passes an `HTTPError` through unchanged,
wraps a generic `Error` as 500/text, wraps a value of object type as
500 with its JSON serialization, and wraps any other value as 500/text;
when the resulting status is at least 500 it logs the original failure
at error level and finalizes the response with that status, the
error's content type, and an empty body — unless the response is
already finished, in which case only the log entry is emitted and the
response state is otherwise unchanged. -/
theorem claim_error_interceptor (v : JSValue) (res : CafResponse) :
    (∀ e, anythingToError (JSValue.vHttpErr e) = e)
    ∧ (∀ m, anythingToError (JSValue.vErr m) = ⟨500, m, "text"⟩)
    ∧ (∀ j, anythingToError (JSValue.vObj j) = ⟨500, j, "json"⟩)
    ∧ (∀ s, anythingToError (JSValue.vStr s) = ⟨500, s, "text"⟩)
    ∧ (∀ n, anythingToError (JSValue.vNum n) = ⟨500, toString n, "text"⟩)
    ∧ (500 ≤ (anythingToError v).status → res.finished = false → res.closeRequested = false →
        (handleError v res).2 = Except.ok (anythingToError v)
        ∧ (handleError v res).1.statusCode = (anythingToError v).status
        ∧ (handleError v res).1.chunks = res.chunks
        ∧ (handleError v res).1.finished = true
        ∧ ((⟨LogLevel.error, "route", some v⟩ : LogEntry) ∈ (handleError v res).1.logs)
        ∧ (handleError v res).1.get "Content-Type"
            = (if (anythingToError v).type = "text" then "text/plain"
               else if (anythingToError v).type = "json" then "application/json"
               else (anythingToError v).type))
    ∧ (500 ≤ (anythingToError v).status → res.finished = true →
        (handleError v res).2 = Except.ok (anythingToError v)
        ∧ (handleError v res).1 = { res with logs := res.logs ++
            [({ level := LogLevel.error, msg := "route", err := some v } : LogEntry)] }) := by
  refine ⟨fun e => rfl, fun m => rfl, fun j => rfl, fun s => rfl, fun n => rfl, ?_, ?_⟩
  · intro hge hf hc
    have hred := handleError_unfinished v res hge hf hc
    have he := endRes_ok
      (CafResponse.type
        (CafResponse.status
          ({ res with logs := res.logs ++
              [({ level := LogLevel.error, msg := "route", err := some v } : LogEntry)] })
          (anythingToError v).status)
        (anythingToError v).type)
      (some (JSValue.vStr "")) hc
    rw [hred]
    refine ⟨rfl, ?_, ?_, he.2.1, ?_, ?_⟩
    · rw [he.2.2.2.1]; rfl
    · rw [he.2.2.2.2.2]
      simp [JSValue.jsTruthy]
      rfl
    · show _ ∈ (CafResponse.endRes _ (some (JSValue.vStr ""))).1.logs
      apply closeAndLog_logs_mem
      rw [(sendHead_fields _).2.2.2.2.2]
      rw [warnIfFinished_of_unfinished
        (CafResponse.type
          (CafResponse.status
            ({ res with logs := res.logs ++
                [({ level := LogLevel.error, msg := "route", err := some v } : LogEntry)] })
            (anythingToError v).status)
          (anythingToError v).type)
        hf]
      exact List.mem_append_right _ (List.mem_singleton_self _)
    · rw [get_congr _ _ he.2.2.2.2.1]
      exact get_set_self _ _ _ _ rfl
  · intro hge hf
    simp only [handleError]
    rw [if_pos (show (anythingToError v).status > 499 from hge),
      if_neg (show ¬(!res.finished) = true by rw [hf]; simp)]
    exact ⟨rfl, rfl⟩

/-- Witness for C6 at a thrown generic `Error` and a fresh response,
and at an `HTTPError` against a finished response. -/
theorem claim_error_interceptor_witness :
    (handleError (JSValue.vErr "boom") {}).2 = Except.ok (anythingToError (JSValue.vErr "boom"))
      ∧ (handleError (JSValue.vErr "boom") {}).1.statusCode
          = (anythingToError (JSValue.vErr "boom")).status
      ∧ (handleError (JSValue.vErr "boom") {}).1.chunks = ({} : CafResponse).chunks
      ∧ (handleError (JSValue.vErr "boom") {}).1.finished = true
      ∧ ((⟨LogLevel.error, "route", some (JSValue.vErr "boom")⟩ : LogEntry)
          ∈ (handleError (JSValue.vErr "boom") {}).1.logs)
      ∧ (handleError (JSValue.vErr "boom") {}).1.get "Content-Type"
          = (if (anythingToError (JSValue.vErr "boom")).type = "text" then "text/plain"
             else if (anythingToError (JSValue.vErr "boom")).type = "json" then "application/json"
             else (anythingToError (JSValue.vErr "boom")).type) :=
  (claim_error_interceptor (JSValue.vErr "boom") {}).2.2.2.2.2.1
    (by decide) (by decide) (by decide)

/-- C7: whenever the try-block of the body accessor rejects (malformed
JSON, decode error), `parse` converts the failure into a response
finalized with status 400 and body "Invalid format", and what
propagates to the caller is the 400 `HTTPError` thrown by
`badRequest(true, ...)` — never the underlying parse exception, whose
content does not influence the outcome. -/
theorem claim_parse_failure (rb : RequestBody) (res : CafResponse) (e : String)
    (hf : parseInner rb = Except.error e) (hc : res.closeRequested = false) :
    (RequestBody.parse rb res).2
        = Except.error (Thrown.http ⟨400, "Invalid format", "text/plain"⟩)
      ∧ (RequestBody.parse rb res).1.statusCode = 400
      ∧ (RequestBody.parse rb res).1.finished = true
      ∧ (RequestBody.parse rb res).1.chunks = res.chunks ++ ["Invalid format"] := by
  have he := error_str_spec res 400 "Invalid format" [] hc
  have hfmt : sprintfFmt "Invalid format" (([] : List JSValue).map JSValue.jsString)
      = "Invalid format" := rfl
  rw [hfmt] at he
  have hb : CafResponse.badRequest res true (some "Invalid format") []
      = ((CafResponse.error res 400 (JSValue.vStr "Invalid format") []).1,
         some (Thrown.http ⟨400, "Invalid format", "text/plain"⟩)) := by
    show (match CafResponse.error res 400 (JSValue.vStr "Invalid format") [] with
      | (res, Except.ok e) => (res, some (Thrown.http e))
      | (res, Except.error t) => (res, some t)) = _
    rw [pair_eta _ _ he.1]
  simp only [RequestBody.parse, hf, hb]
  refine ⟨trivial, he.2.1, he.2.2.1, ?_⟩
  rw [he.2.2.2]
  simp

/-- Witness for C7: a JSON body whose underlying `json()` accessor
rejects, against a fresh response. -/
theorem claim_parse_failure_witness :
    (RequestBody.parse
        (RequestBody.make "application/json"
          (some ⟨Except.error "bad json", Except.ok "", Except.ok []⟩)) {}).2
        = Except.error (Thrown.http ⟨400, "Invalid format", "text/plain"⟩)
      ∧ (RequestBody.parse
          (RequestBody.make "application/json"
            (some ⟨Except.error "bad json", Except.ok "", Except.ok []⟩)) {}).1.statusCode = 400
      ∧ (RequestBody.parse
          (RequestBody.make "application/json"
            (some ⟨Except.error "bad json", Except.ok "", Except.ok []⟩)) {}).1.finished = true
      ∧ (RequestBody.parse
          (RequestBody.make "application/json"
            (some ⟨Except.error "bad json", Except.ok "", Except.ok []⟩)) {}).1.chunks
          = ({} : CafResponse).chunks ++ ["Invalid format"] :=
  claim_parse_failure
    (RequestBody.make "application/json"
      (some ⟨Except.error "bad json", Except.ok "", Except.ok []⟩))
    {} "bad json" (by decide) (by decide)

/-- C10: re-registering an identical (method, path) pair always fails
with the duplicate-route assertion (the route table mutation happens
only after the duplicate check, so a failing registration leaves the
table unchanged), and setting a fallback route when one is already set
fails with the duplicate-fallback assertion. -/
theorem claim_route_conflict {H : Type} (api api2 : API H) (method path : String)
    (h h2 fb : H) :
    (API.addEndpoint api method path h = Except.ok api2 →
      API.addEndpoint api2 method path h2
        = Except.error ("Route for '" ++ (strUpper method ++ " " ++ path)
            ++ "' is already defined"))
    ∧ (api.fallbackRoute = some fb →
        API.setFallbackRoute api h2 = Except.error "Route for 'ALL' is already defined") := by
  constructor
  · intro hok
    have hroutes : api2.routes = api.routes ++ [strUpper method ++ " " ++ path] := by
      unfold API.addEndpoint at hok
      by_cases hdup : api.routes.contains (strUpper method ++ " " ++ path)
      · rw [if_pos hdup] at hok
        cases hok
      · rw [if_neg hdup] at hok
        by_cases hst : (!strHasSub path "/:" && !strHasSub path "*") = true
        · rw [if_pos hst] at hok
          cases hok
          rfl
        · rw [if_neg hst] at hok
          cases hok
          rfl
    have hmem : api2.routes.contains (strUpper method ++ " " ++ path) = true := by
      rw [hroutes]
      exact List.elem_eq_true_of_mem
        (List.mem_append_right _ (List.mem_singleton_self _))
    unfold API.addEndpoint
    rw [if_pos hmem]
  · intro hfb
    unfold API.setFallbackRoute
    rw [if_pos (by rw [hfb]; rfl)]

/-- Witness for C10: registering `GET /foo` twice on the empty table,
and a second fallback on a table that has one. -/
theorem claim_route_conflict_witness :
    (API.addEndpoint ({} : API Nat) "get" "/foo" 1 = Except.ok
        { routes := ["GET /foo"], staticR := [("GET /foo", 1)], dynamic := [],
          fallbackRoute := none }
      → API.addEndpoint
          { routes := ["GET /foo"], staticR := [("GET /foo", 1)], dynamic := [],
            fallbackRoute := none } "get" "/foo" 2
          = Except.error ("Route for '" ++ (strUpper "get" ++ " " ++ "/foo")
              ++ "' is already defined"))
    ∧ (API.addEndpoint ({} : API Nat) "get" "/foo" 1 = Except.ok
        { routes := ["GET /foo"], staticR := [("GET /foo", 1)], dynamic := [],
          fallbackRoute := none })
    ∧ ((API.mk [] [] [] (some 7) : API Nat).fallbackRoute = some 7 →
        API.setFallbackRoute (API.mk [] [] [] (some 7) : API Nat) 9
          = Except.error "Route for 'ALL' is already defined") :=
  ⟨(claim_route_conflict ({} : API Nat)
      { routes := ["GET /foo"], staticR := [("GET /foo", 1)], dynamic := [],
        fallbackRoute := none } "get" "/foo" 1 2 0).1,
   by decide,
   fun hfb => (claim_route_conflict (API.mk [] [] [] (some 7) : API Nat)
      ({} : API Nat) "x" "/y" 0 9 7).2 hfb⟩

theorem findSome?_of_first {α β : Type} (f : α → Option β) :
    ∀ (l : List α) (i : Nat) (hi : i < l.length) (b : β),
      f (l.get ⟨i, hi⟩) = some b →
      (∀ j, (hj : j < i) → f (l.get ⟨j, Nat.lt_trans hj hi⟩) = none) →
      l.findSome? f = some b
  | [], i, hi, b, _, _ => absurd hi (Nat.not_lt_zero i)
  | a :: as, 0, _, b, hm, _ => by
      simp only [List.get] at hm
      simp [List.findSome?, hm]
  | a :: as, Nat.succ n, hi, b, hm, hearlier => by
      have h0 : f a = none := hearlier 0 (Nat.succ_pos n)
      simp only [List.findSome?, h0]
      exact findSome?_of_first f as n (Nat.lt_of_succ_lt_succ hi) b hm
        (fun j hj => hearlier (j + 1) (Nat.succ_lt_succ hj))

theorem findSome?_of_all_none {α β : Type} (f : α → Option β) :
    ∀ (l : List α), (∀ x ∈ l, f x = none) → l.findSome? f = none
  | [], _ => rfl
  | a :: as, h => by
      simp only [List.findSome?, h a (List.mem_cons_self a as)]
      exact findSome?_of_all_none f as (fun x hx => h x (List.mem_cons_of_mem a hx))

/-- C2: `matchRoute` performs the exact-match lookup on the static
table keyed by "METHOD path" first; on a miss it scans the method's
dynamic list in registration order and the first pattern accepting the
path wins, returning the handler with the captured bindings; when no
dynamic pattern matches, it returns the fallback handler when one is
set and otherwise reports no match (`none`, which the dispatcher turns
into a 404). -/
theorem claim_matchRoute {H : Type} (api : API H) (method path : String)
    (l : List (DynRoute H)) (hl : (recordGet api.dynamic method).getD [] = l) :
    (∀ h, recordGet api.staticR (method ++ " " ++ path) = some h →
        api.matchRoute method path = some (h, []))
    ∧ (recordGet api.staticR (method ++ " " ++ path) = none →
        (∀ (i : Nat) (hi : i < l.length) (bs : List (String × String)),
            matchSegs (l.get ⟨i, hi⟩).pattern path = some bs →
            (∀ j, (hj : j < i) →
              matchSegs (l.get ⟨j, Nat.lt_trans hj hi⟩).pattern path = none) →
            api.matchRoute method path = some ((l.get ⟨i, hi⟩).handler, bs))
        ∧ ((∀ r ∈ l, matchSegs r.pattern path = none) →
            api.matchRoute method path = api.fallbackRoute.map (fun h => (h, [])))) := by
  constructor
  · intro h hst
    simp only [API.matchRoute, hst]
  · intro hst
    constructor
    · intro i hi bs hm hearlier
      have hfs : l.findSome?
          (fun r => (matchSegs r.pattern path).map fun bs => (r.handler, bs))
          = some ((l.get ⟨i, hi⟩).handler, bs) := by
        apply findSome?_of_first _ l i hi
        · rw [hm]
          rfl
        · intro j hj
          rw [hearlier j hj]
          rfl
      simp only [API.matchRoute, hst, hl, hfs]
    · intro hnone
      have hfs : l.findSome?
          (fun r => (matchSegs r.pattern path).map fun bs => (r.handler, bs))
          = none := by
        apply findSome?_of_all_none
        intro x hx
        rw [hnone x hx]
        rfl
      simp only [API.matchRoute, hst, hl, hfs]

/-- Witness for C2 on a table with one static route, two dynamic
routes for POST, and no fallback: a static hit, a first-match dynamic
hit at index 1 with its binding, and the no-match case. -/
theorem claim_matchRoute_witness :
    (API.mk ["POST /s"] [("POST /s", 10)]
        [("POST", [⟨[Seg.lit "a"], 11⟩, ⟨[Seg.param "x"], 12⟩])] none : API Nat).matchRoute
        "POST" "/s" = some (10, [])
    ∧ (API.mk ["POST /s"] [("POST /s", 10)]
        [("POST", [⟨[Seg.lit "a"], 11⟩, ⟨[Seg.param "x"], 12⟩])] none : API Nat).matchRoute
        "POST" "/b" = some (12, [("x", "b")])
    ∧ (API.mk ["POST /s"] [("POST /s", 10)]
        [("POST", [⟨[Seg.lit "a"], 11⟩, ⟨[Seg.param "x"], 12⟩])] none : API Nat).matchRoute
        "GET" "/b" = Option.map (fun h => (h, [])) (none : Option Nat) := by
  refine ⟨?_, ?_, ?_⟩
  · exact (claim_matchRoute _ "POST" "/s" _ rfl).1 10 (by decide)
  · exact ((claim_matchRoute (API.mk ["POST /s"] [("POST /s", 10)]
        [("POST", [⟨[Seg.lit "a"], 11⟩, ⟨[Seg.param "x"], 12⟩])] none : API Nat)
        "POST" "/b" [⟨[Seg.lit "a"], 11⟩, ⟨[Seg.param "x"], 12⟩] rfl).2 (by decide)).1
      1 (by decide) [("x", "b")] (by decide)
      (fun j hj => by
        have hj0 : j = 0 := Nat.lt_one_iff.mp hj
        subst hj0
        exact (by decide :
          matchSegs ((([⟨[Seg.lit "a"], 11⟩, ⟨[Seg.param "x"], 12⟩]) :
              List (DynRoute Nat)).get ⟨0, Nat.succ_pos 1⟩).pattern "/b" = none))
  · exact ((claim_matchRoute (API.mk ["POST /s"] [("POST /s", 10)]
        [("POST", [⟨[Seg.lit "a"], 11⟩, ⟨[Seg.param "x"], 12⟩])] none : API Nat)
        "GET" "/b" [] rfl).2 (by decide)).2 (by decide)

theorem data_append (s t : String) : (s ++ t).data = s.data ++ t.data := rfl

theorem append_sep_inj (c : Char) :
    ∀ (l1 l2 r1 r2 : List Char), c ∉ l1 → c ∉ l2 →
      l1 ++ c :: r1 = l2 ++ c :: r2 → l1 = l2
  | [], [], _, _, _, _, _ => rfl
  | [], b :: bs, r1, r2, _, h2, he => by
      rw [List.nil_append] at he
      injection he with hb _
      exact absurd (by rw [hb]; exact List.mem_cons_self b bs) h2
  | a :: as, [], r1, r2, h1, _, he => by
      rw [List.nil_append] at he
      injection he with hb _
      exact absurd (by rw [← hb]; exact List.mem_cons_self a as) h1
  | a :: as, b :: bs, r1, r2, h1, h2, he => by
      rw [List.cons_append, List.cons_append] at he
      injection he with hab ht
      have htail := append_sep_inj c as bs r1 r2
        (fun hc => h1 (List.mem_cons_of_mem a hc))
        (fun hc => h2 (List.mem_cons_of_mem b hc)) ht
      rw [hab, htail]

/-- The `"METHOD path"` key format recovers the method: two keys with
space-free methods agree on the method when they are equal. -/
theorem key_method_inj (m1 m2 p1 p2 : String) (h1 : ' ' ∉ m1.data) (h2 : ' ' ∉ m2.data)
    (he : m1 ++ " " ++ p1 = m2 ++ " " ++ p2) : m1 = m2 := by
  have hd := congrArg String.data he
  rw [data_append, data_append, data_append, data_append] at hd
  rw [show (" " : String).data = [' '] from rfl] at hd
  rw [List.append_assoc, List.append_assoc, List.singleton_append,
    List.singleton_append] at hd
  have hm := append_sep_inj ' ' m1.data m2.data p1.data p2.data h1 h2 hd
  obtain ⟨d1⟩ := m1
  obtain ⟨d2⟩ := m2
  exact congrArg String.mk hm

theorem recordGet_mem {α : Type} :
    ∀ (l : List (String × α)) (k : String) (v : α),
      recordGet l k = some v → (k, v) ∈ l
  | [], _, _, h => by cases h
  | (k1, v1) :: rest, k, v, h => by
      by_cases hk : k1 = k
      · subst hk
        rw [recordGet, if_pos rfl] at h
        injection h with hv
        subst hv
        exact List.mem_cons_self _ _
      · rw [recordGet, if_neg hk] at h
        exact List.mem_cons_of_mem _ (recordGet_mem rest k v h)

theorem recordSet_keys {α : Type} :
    ∀ (l : List (String × α)) (k : String) (v : α) (e : String × α),
      e ∈ recordSet l k v → e.1 = k ∨ e ∈ l
  | [], k, v, e, he => by
      rw [recordSet] at he
      rcases List.mem_singleton.mp he with rfl
      exact Or.inl rfl
  | (k1, v1) :: rest, k, v, e, he => by
      by_cases hk : k1 = k
      · subst hk
        rw [recordSet, if_pos rfl] at he
        rcases List.mem_cons.mp he with rfl | hmem
        · exact Or.inl rfl
        · exact Or.inr (List.mem_cons_of_mem _ hmem)
      · rw [recordSet, if_neg hk] at he
        rcases List.mem_cons.mp he with rfl | hmem
        · exact Or.inr (List.mem_cons_self _ _)
        · rcases recordSet_keys rest k v e hmem with h | h
          · exact Or.inl h
          · exact Or.inr (List.mem_cons_of_mem _ h)

/-- A successful duplicate-free registration appends exactly the
`"METHOD path"` key to the key set. -/
theorem addEndpoint_routes {H : Type} (api api2 : API H) (method path : String) (h : H)
    (hok : API.addEndpoint api method path h = Except.ok api2) :
    api2.routes = api.routes ++ [strUpper method ++ " " ++ path] := by
  unfold API.addEndpoint at hok
  by_cases hdup : api.routes.contains (strUpper method ++ " " ++ path)
  · rw [if_pos hdup] at hok
    cases hok
  · rw [if_neg hdup] at hok
    by_cases hst : (!strHasSub path "/:" && !strHasSub path "*") = true
    · rw [if_pos hst] at hok
      cases hok
      rfl
    · rw [if_neg hst] at hok
      cases hok
      rfl

/-- Re-registering a key that a successful registration just added
always fails with the duplicate-route assertion. -/
theorem addEndpoint_dup {H : Type} (api api2 : API H) (method path : String) (h h2 : H)
    (hok : API.addEndpoint api method path h = Except.ok api2) :
    API.addEndpoint api2 method path h2
      = Except.error ("Route for '" ++ (strUpper method ++ " " ++ path)
          ++ "' is already defined") := by
  have hmem : api2.routes.contains (strUpper method ++ " " ++ path) = true := by
    rw [addEndpoint_routes api api2 method path h hok]
    exact List.elem_eq_true_of_mem
      (List.mem_append_right _ (List.mem_singleton_self _))
  unfold API.addEndpoint
  rw [if_pos hmem]

/-- A successful registration under literal method `POST` preserves
the `postOnly` invariant. -/
theorem addEndpoint_post_preserves {H : Type} (api api2 : API H) (p : String) (h : H)
    (hok : API.addEndpoint api "POST" p h = Except.ok api2) (hpo : postOnly api) :
    postOnly api2 := by
  unfold API.addEndpoint at hok
  rw [show strUpper "POST" = "POST" from by decide] at hok
  by_cases hdup : api.routes.contains ("POST" ++ " " ++ p)
  · rw [if_pos hdup] at hok
    cases hok
  · rw [if_neg hdup] at hok
    by_cases hst : (!strHasSub p "/:" && !strHasSub p "*") = true
    · rw [if_pos hst] at hok
      cases hok
      refine ⟨?_, hpo.2.1, hpo.2.2⟩
      intro q hq
      rcases List.mem_append.mp hq with hold | hnew
      · exact hpo.1 q hold
      · rcases List.mem_singleton.mp hnew with rfl
        exact ⟨p, rfl⟩
    · rw [if_neg hst] at hok
      cases hok
      refine ⟨hpo.1, ?_, hpo.2.2⟩
      intro e he
      rcases recordSet_keys _ _ _ e he with h1 | h1
      · exact h1
      · exact hpo.2.1 e h1

/-- On a `postOnly` table, `matchRoute` for any space-free method
other than `POST` finds nothing. -/
theorem postOnly_matchRoute_none {H : Type} (api : API H) (hpo : postOnly api)
    (m path : String) (hm : ' ' ∉ m.data) (hne : m ≠ "POST") :
    api.matchRoute m path = none := by
  have hsp : ' ' ∉ ("POST" : String).data := by decide
  have hst : recordGet api.staticR (m ++ " " ++ path) = none := by
    cases hq : recordGet api.staticR (m ++ " " ++ path) with
    | none => rfl
    | some v =>
        exfalso
        obtain ⟨q, hkey⟩ := hpo.1 _ (recordGet_mem _ _ _ hq)
        exact hne (key_method_inj m "POST" path q hm hsp hkey)
  have hdy : recordGet api.dynamic m = none := by
    cases hq : recordGet api.dynamic m with
    | none => rfl
    | some dl =>
        exfalso
        exact hne (hpo.2.1 _ (recordGet_mem _ _ _ hq))
  simp only [API.matchRoute, hst, hdy, hpo.2.2]
  rfl

/-- C3: the `App` verb helpers `put`/`patch`/`get`/`del` and the
`Router` helpers `put`/`del`/`patch`/`options`/`get` all register the
route under HTTP method `POST`, exactly as `post` does (their bodies
pass the literal `'POST'`); consequently, on a table populated only
through these helpers (the `postOnly` invariant, which holds for the
empty table and is preserved by every helper), a request whose method
is GET, PUT, PATCH, DELETE or OPTIONS matches no route; and
registering two different verbs on the same path through these helpers
raises the duplicate-route error. -/
theorem claim_post_verbs {H : Type} (api api2 : API H) (p reqPath : String) (h h2 : H)
    (routes : List (RouterRoute H)) :
    (App.put api p h = App.post api p h
      ∧ App.patch api p h = App.post api p h
      ∧ App.get api p h = App.post api p h
      ∧ App.del api p h = App.post api p h)
    ∧ (Router.put routes p h = Router.post routes p h
      ∧ Router.del routes p h = Router.post routes p h
      ∧ Router.patch routes p h = Router.post routes p h
      ∧ Router.options routes p h = Router.post routes p h
      ∧ Router.get routes p h = Router.post routes p h
      ∧ (Router.get routes p h).map RouterRoute.method
          = routes.map RouterRoute.method ++ ["POST"])
    ∧ postOnly ({} : API H)
    ∧ (∀ f ∈ ([App.post, App.put, App.patch, App.get, App.del] :
          List (API H → String → H → Except String (API H))),
        f api p h = Except.ok api2 → postOnly api → postOnly api2)
    ∧ (postOnly api →
        ∀ m ∈ (["GET", "PUT", "PATCH", "DELETE", "OPTIONS"] : List String),
          api.matchRoute m reqPath = none)
    ∧ (∀ f ∈ ([App.post, App.put, App.patch, App.get, App.del] :
          List (API H → String → H → Except String (API H))),
        ∀ g ∈ ([App.post, App.put, App.patch, App.get, App.del] :
          List (API H → String → H → Except String (API H))),
        f api p h = Except.ok api2 →
          g api2 p h2 = Except.error ("Route for '" ++ (strUpper "POST" ++ " " ++ p)
            ++ "' is already defined")) := by
  refine ⟨⟨rfl, rfl, rfl, rfl⟩, ⟨rfl, rfl, rfl, rfl, rfl, by simp [Router.get, Router.post]⟩,
    ?_, ?_, ?_, ?_⟩
  · exact ⟨fun q hq => absurd hq (List.not_mem_nil _),
      fun e he => absurd he (List.not_mem_nil _), rfl⟩
  · intro f hf
    simp only [List.mem_cons, List.not_mem_nil, or_false] at hf
    rcases hf with rfl | rfl | rfl | rfl | rfl <;>
      exact fun hok hpo => addEndpoint_post_preserves api api2 p h hok hpo
  · intro hpo m hmem
    simp only [List.mem_cons, List.not_mem_nil, or_false] at hmem
    rcases hmem with rfl | rfl | rfl | rfl | rfl
    · exact postOnly_matchRoute_none api hpo "GET" reqPath (by decide) (by decide)
    · exact postOnly_matchRoute_none api hpo "PUT" reqPath (by decide) (by decide)
    · exact postOnly_matchRoute_none api hpo "PATCH" reqPath (by decide) (by decide)
    · exact postOnly_matchRoute_none api hpo "DELETE" reqPath (by decide) (by decide)
    · exact postOnly_matchRoute_none api hpo "OPTIONS" reqPath (by decide) (by decide)
  · intro f hf g hg hok
    simp only [List.mem_cons, List.not_mem_nil, or_false] at hf hg
    have hok2 : API.addEndpoint api "POST" p h = Except.ok api2 := by
      rcases hf with rfl | rfl | rfl | rfl | rfl <;> exact hok
    have hdup := addEndpoint_dup api api2 "POST" p h h2 hok2
    rcases hg with rfl | rfl | rfl | rfl | rfl <;> exact hdup

/-- Witness for C3: registering `/foo` through `App.get` on the empty
table stores it under `POST /foo`; a GET request for `/foo` then
matches nothing, and a second registration of `/foo` through `App.put`
fails with the duplicate-route error. -/
theorem claim_post_verbs_witness :
    App.put ({} : API Nat) "/a" 5 = App.post ({} : API Nat) "/a" 5
    ∧ App.get ({} : API Nat) "/foo" 1
        = Except.ok (API.mk ["POST /foo"] [("POST /foo", 1)] [] none)
    ∧ (API.mk ["POST /foo"] [("POST /foo", 1)] [] none : API Nat).matchRoute "GET" "/foo"
        = none
    ∧ App.put (API.mk ["POST /foo"] [("POST /foo", 1)] [] none : API Nat) "/foo" 2
        = Except.error ("Route for '" ++ (strUpper "POST" ++ " " ++ "/foo")
            ++ "' is already defined") := by
  have thmA := @claim_post_verbs Nat {} (API.mk ["POST /foo"] [("POST /foo", 1)] [] none)
    "/foo" "/foo" 1 2 []
  have thmB := @claim_post_verbs Nat (API.mk ["POST /foo"] [("POST /foo", 1)] [] none)
    (API.mk ["POST /foo"] [("POST /foo", 1)] [] none) "/foo" "/foo" 1 2 []
  have hgetmem : App.get ∈ ([App.post, App.put, App.patch, App.get, App.del] :
      List (API Nat → String → Nat → Except String (API Nat))) :=
    List.mem_cons_of_mem _ (List.mem_cons_of_mem _ (List.mem_cons_of_mem _
      (List.mem_cons_self _ _)))
  have hputmem : App.put ∈ ([App.post, App.put, App.patch, App.get, App.del] :
      List (API Nat → String → Nat → Except String (API Nat))) :=
    List.mem_cons_of_mem _ (List.mem_cons_self _ _)
  have hok : App.get ({} : API Nat) "/foo" 1
      = Except.ok (API.mk ["POST /foo"] [("POST /foo", 1)] [] none) := by decide
  have hpo : postOnly (API.mk ["POST /foo"] [("POST /foo", 1)] [] none : API Nat) :=
    thmA.2.2.2.1 App.get hgetmem hok thmA.2.2.1
  refine ⟨(@claim_post_verbs Nat {} {} "/a" "/a" 5 5 []).1.1, hok, ?_, ?_⟩
  · exact thmB.2.2.2.2.1 hpo "GET" (List.mem_cons_self _ _)
  · exact thmA.2.2.2.2.2 App.get hgetmem App.put hputmem hok

/-- C9 counterexample: appending `Origin` when no `Vary` header is set
yields the value `, origin` — the parsed list has a leading empty
entry before the lower-cased field name — and not a list containing
exactly the field name, because `''.split(',')` in JS is `['']`. -/
theorem claim_vary_counterexample :
    (setVaryHeader {} "Origin").get "Vary" = ", origin"
      ∧ varyEntries (setVaryHeader {} "Origin") = ["", "origin"]
      ∧ ("" :: "origin" :: ([] : List String)) ≠ ["Origin"]
      ∧ ("" :: "origin" :: ([] : List String)) ≠ ["origin"] := by
  decide

/-- C9 amended: `setVaryHeader` leaves everything unchanged when the
existing list is `*`; setting `*` always results in `*`; otherwise it
parses the existing comma-separated value into trimmed lower-cased
entries, appends the lower-cased field name unless an entry already
matches it case-insensitively, and re-joins with a comma and a space —
so appending to an unset `Vary` yields a leading empty entry followed
by the lower-cased name (value `, <name>`), not exactly the name. -/
theorem claim_set_vary (res : CafResponse) (v : String) :
    (res.get "Vary" = "*" → setVaryHeader res v = res)
    ∧ ((setVaryHeader res "*").get "Vary" = "*")
    ∧ (res.get "Vary" ≠ "*" → v ≠ "*" →
        (setVaryHeader res v).get "Vary"
          = joinSep ", "
              (if (varyEntries res).contains (strLower v) then varyEntries res
               else varyEntries res ++ [strLower v]))
    ∧ (res.get "Vary" = "" → v ≠ "*" → strLower v ≠ "" →
        varyEntries res = [""]
          ∧ (setVaryHeader res v).get "Vary" = ", " ++ strLower v) := by
  refine ⟨?_, ?_, ?_, ?_⟩
  · intro hstar
    unfold setVaryHeader
    rw [if_pos hstar]
  · by_cases hstar : res.get "Vary" = "*"
    · unfold setVaryHeader
      rw [if_pos hstar]
      exact hstar
    · unfold setVaryHeader
      rw [if_neg hstar, if_pos rfl]
      exact get_set_self res "Vary" "Vary" "*" rfl
  · intro hstar hv
    by_cases hc : (varyEntries res).contains (strLower v)
    · rw [if_pos hc]
      simp only [setVaryHeader]
      rw [if_neg hstar, if_neg hv]
      rw [if_pos (show ((strSplit (res.get "Vary") ',').map
          (fun item => strLower (strTrim item))).contains (strLower v) = true from hc)]
      exact get_set_self res "Vary" "Vary" _ rfl
    · rw [if_neg hc]
      simp only [setVaryHeader]
      rw [if_neg hstar, if_neg hv]
      rw [if_neg (show ¬((strSplit (res.get "Vary") ',').map
          (fun item => strLower (strTrim item))).contains (strLower v) = true from hc)]
      exact get_set_self res "Vary" "Vary" _ rfl
  · intro hempty hv hlv
    have hentries : varyEntries res = [""] := by
      unfold varyEntries
      rw [hempty]
      rfl
    refine ⟨hentries, ?_⟩
    simp only [setVaryHeader]
    rw [if_neg (show ¬res.get "Vary" = "*" from by rw [hempty]; decide), if_neg hv]
    rw [show (strSplit (res.get "Vary") ',').map (fun item => strLower (strTrim item))
        = [""] from hentries]
    rw [if_neg (show ¬([""] : List String).contains (strLower v) = true from fun hcon =>
      hlv (List.mem_singleton.mp (List.mem_of_elem_eq_true hcon)))]
    rw [get_set_self res "Vary" "Vary" (joinSep ", " ([""] ++ [strLower v])) rfl]
    rfl

/-- Witness for the amended C9: the `*` cases, a case-insensitive
duplicate append on `Vary: origin`, and the unset-`Vary` append. -/
theorem claim_set_vary_witness :
    (setVaryHeader (CafResponse.set {} "Vary" "*") "X" = CafResponse.set {} "Vary" "*")
    ∧ ((setVaryHeader {} "*").get "Vary" = "*")
    ∧ ((setVaryHeader (CafResponse.set {} "Vary" "origin") "Origin").get "Vary"
        = joinSep ", "
            (if (varyEntries (CafResponse.set {} "Vary" "origin")).contains (strLower "Origin")
             then varyEntries (CafResponse.set {} "Vary" "origin")
             else varyEntries (CafResponse.set {} "Vary" "origin") ++ [strLower "Origin"]))
    ∧ (varyEntries ({} : CafResponse) = [""]
        ∧ (setVaryHeader {} "Origin").get "Vary" = ", " ++ strLower "Origin") :=
  ⟨(claim_set_vary (CafResponse.set {} "Vary" "*") "X").1 (by decide),
   (claim_set_vary ({} : CafResponse) "*").2.1,
   (claim_set_vary (CafResponse.set {} "Vary" "origin") "Origin").2.2.1 (by decide) (by decide),
   (claim_set_vary ({} : CafResponse) "Origin").2.2.2 (by decide) (by decide) (by decide)⟩

theorem set_closeRequested (res : CafResponse) (k v : String) :
    (res.set k v).closeRequested = res.closeRequested := rfl

theorem set_finished (res : CafResponse) (k v : String) :
    (res.set k v).finished = res.finished := rfl

theorem status_closeRequested (res : CafResponse) (s : Nat) :
    (res.status s).closeRequested = res.closeRequested := rfl

@[simp] theorem get_status_simp (res : CafResponse) (s : Nat) (k : String) :
    (res.status s).get k = res.get k := rfl

@[simp] theorem get_set_same (res : CafResponse) (k k' v : String)
    (h : strLower k' = strLower k) : (res.set k v).get k' = v :=
  get_set_self res k k' v h

@[simp] theorem get_set_diff (res : CafResponse) (k k' v : String)
    (h : strLower k' ≠ strLower k) : (res.set k v).get k' = res.get k' :=
  get_set_other res k k' v h

@[simp] theorem setVary_closeRequested (res : CafResponse) (v : String) :
    (setVaryHeader res v).closeRequested = res.closeRequested := by
  simp only [setVaryHeader]
  split_ifs <;> rfl

@[simp] theorem setVary_finished (res : CafResponse) (v : String) :
    (setVaryHeader res v).finished = res.finished := by
  simp only [setVaryHeader]
  split_ifs <;> rfl

@[simp] theorem get_setVary_diff (res : CafResponse) (v k : String)
    (h : strLower k ≠ "vary") : (setVaryHeader res v).get k = res.get k := by
  simp only [setVaryHeader]
  split_ifs <;> try rfl
  all_goals refine get_set_other res "Vary" k _ ?_
  all_goals rw [show strLower "Vary" = "vary" from by decide]
  all_goals exact h

@[simp] theorem strLower_lit_vary : strLower "Vary" = "vary" := by decide

@[simp] theorem strLower_lit_cl : strLower "Content-Length" = "content-length" := by decide

@[simp] theorem strLower_lit_acam :
    strLower "Access-Control-Allow-Methods" = "access-control-allow-methods" := by decide

@[simp] theorem strLower_lit_acah :
    strLower "Access-Control-Allow-Headers" = "access-control-allow-headers" := by decide

@[simp] theorem strLower_lit_acma :
    strLower "Access-Control-Max-Age" = "access-control-max-age" := by decide

@[simp] theorem strLower_lit_acao :
    strLower "Access-Control-Allow-Origin" = "access-control-allow-origin" := by decide

@[simp] theorem strLower_lit_acac :
    strLower "Access-Control-Allow-Credentials" = "access-control-allow-credentials" := by decide

@[simp] theorem strLower_lit_aceh :
    strLower "Access-Control-Expose-Headers" = "access-control-expose-headers" := by decide

theorem setVary_origin_of_unset (res : CafResponse) (h : res.get "Vary" = "") :
    (setVaryHeader res "Origin").get "Vary" = ", origin" := by
  simp only [setVaryHeader]
  rw [if_neg (by rw [h]; decide), if_neg (by decide), h]
  rw [show (strSplit "" ',').map (fun item => strLower (strTrim item)) = [""] from by decide]
  rw [if_neg (by decide)]
  rw [get_set_self res "Vary" "Vary" _ rfl]
  decide

theorem setVary_acrh_of_unset (res : CafResponse) (h : res.get "Vary" = "") :
    (setVaryHeader res "Access-Control-request-Headers").get "Vary"
      = ", access-control-request-headers" := by
  simp only [setVaryHeader]
  rw [if_neg (by rw [h]; decide), if_neg (by decide), h]
  rw [show (strSplit "" ',').map (fun item => strLower (strTrim item)) = [""] from by decide]
  rw [if_neg (by decide)]
  rw [get_set_self res "Vary" "Vary" _ rfl]
  decide

theorem setVary_acrh_of_origin (res : CafResponse) (h : res.get "Vary" = ", origin") :
    (setVaryHeader res "Access-Control-request-Headers").get "Vary"
      = ", origin, access-control-request-headers" := by
  simp only [setVaryHeader]
  rw [if_neg (by rw [h]; decide), if_neg (by decide), h]
  rw [show (strSplit ", origin" ',').map (fun item => strLower (strTrim item))
      = ["", "origin"] from by decide]
  rw [if_neg (by decide)]
  rw [get_set_self res "Vary" "Vary" _ rfl]
  decide

theorem initCorsOrigin_flags (opts : CorsOptions) (origin : String) (res : CafResponse) :
    (initCorsOrigin opts origin res).closeRequested = res.closeRequested
      ∧ (initCorsOrigin opts origin res).finished = res.finished := by
  simp only [initCorsOrigin]
  split
  · exact ⟨rfl, rfl⟩
  · split <;> simp [set_closeRequested, set_finished]

theorem initCorsCredentials_flags (opts : CorsOptions) (res : CafResponse) :
    (initCorsCredentials opts res).closeRequested = res.closeRequested
      ∧ (initCorsCredentials opts res).finished = res.finished := by
  unfold initCorsCredentials
  split <;> exact ⟨rfl, rfl⟩

theorem initCorsExposed_flags (opts : CorsOptions) (res : CafResponse) :
    (initCorsExposed opts res).closeRequested = res.closeRequested
      ∧ (initCorsExposed opts res).finished = res.finished := by
  unfold initCorsExposed
  split
  · split <;> exact ⟨rfl, rfl⟩
  · exact ⟨rfl, rfl⟩

theorem initCors_flags (opts : CorsOptions) (origin : String) (res : CafResponse) :
    (initCors opts origin res).closeRequested = res.closeRequested
      ∧ (initCors opts origin res).finished = res.finished := by
  unfold initCors
  refine ⟨?_, ?_⟩
  · rw [(initCorsExposed_flags _ _).1, (initCorsCredentials_flags _ _).1,
      (initCorsOrigin_flags _ _ _).1]
  · rw [(initCorsExposed_flags _ _).2, (initCorsCredentials_flags _ _).2,
      (initCorsOrigin_flags _ _ _).2]

theorem initCorsCredentials_vary (opts : CorsOptions) (res : CafResponse) :
    (initCorsCredentials opts res).get "Vary" = res.get "Vary" := by
  unfold initCorsCredentials
  split
  · simp
  · rfl

theorem initCorsExposed_vary (opts : CorsOptions) (res : CafResponse) :
    (initCorsExposed opts res).get "Vary" = res.get "Vary" := by
  unfold initCorsExposed
  split
  · split
    · simp
    · rfl
  · rfl

theorem initCorsOrigin_vary (opts : CorsOptions) (origin : String) (res : CafResponse)
    (h : res.get "Vary" = "") :
    (initCorsOrigin opts origin res).get "Vary" = ""
      ∨ (initCorsOrigin opts origin res).get "Vary" = ", origin" := by
  simp only [initCorsOrigin]
  split
  · left
    rw [get_set_diff res _ _ _ (by simp)]
    exact h
  · right
    split
    · apply setVary_origin_of_unset
      rw [get_set_diff res _ _ _ (by simp)]
      exact h
    · apply setVary_origin_of_unset
      rw [get_set_diff res _ _ _ (by simp)]
      exact h

theorem initCors_vary (opts : CorsOptions) (origin : String) (res : CafResponse)
    (h : res.get "Vary" = "") :
    (initCors opts origin res).get "Vary" = ""
      ∨ (initCors opts origin res).get "Vary" = ", origin" := by
  unfold initCors
  rw [initCorsExposed_vary, initCorsCredentials_vary]
  exact initCorsOrigin_vary opts origin res h


theorem hoMethods_cr (opts : CorsOptions) (res : CafResponse) :
    (hoMethods opts res).closeRequested = res.closeRequested := rfl

theorem hoMethods_get_self (opts : CorsOptions) (res : CafResponse) :
    (hoMethods opts res).get "Access-Control-Allow-Methods"
      = (opts.methods.getD (StrOrList.str "GET,HEAD,PUT,PATCH,POST,DELETE")).joined :=
  get_set_self _ _ _ _ rfl

theorem hoMethods_get_other (opts : CorsOptions) (res : CafResponse) (k : String)
    (h : strLower k ≠ "access-control-allow-methods") :
    (hoMethods opts res).get k = res.get k :=
  get_set_other _ _ _ _ (by rw [strLower_lit_acam]; exact h)

theorem hoAllowedSelect_cr (opts : CorsOptions) (needed : String) (res : CafResponse) :
    (hoAllowedSelect opts needed res).2.closeRequested = res.closeRequested := by
  unfold hoAllowedSelect
  split <;> simp

theorem hoAllowedSelect_get_other (opts : CorsOptions) (needed : String)
    (res : CafResponse) (k : String) (h : strLower k ≠ "vary") :
    (hoAllowedSelect opts needed res).2.get k = res.get k := by
  unfold hoAllowedSelect
  split
  · exact get_setVary_diff res _ k h
  · rfl

theorem hoAllowedSelect_fst_truthy (opts : CorsOptions) (needed : String)
    (res : CafResponse) (hA : strOrListTruthy opts.allowedHeaders = true) :
    (hoAllowedSelect opts needed res).1 = opts.allowedHeaders.getD (StrOrList.str "") := by
  unfold hoAllowedSelect
  rw [if_neg (by rw [hA]; decide)]

theorem hoAllowedSelect_fst_falsy (opts : CorsOptions) (needed : String)
    (res : CafResponse) (hA : strOrListTruthy opts.allowedHeaders = false) :
    (hoAllowedSelect opts needed res).1 = StrOrList.str needed := by
  unfold hoAllowedSelect
  rw [if_pos (by rw [hA]; rfl)]

theorem hoAllowedSelect_vary_unset (opts : CorsOptions) (needed : String)
    (res : CafResponse) (hA : strOrListTruthy opts.allowedHeaders = false)
    (h : res.get "Vary" = "") :
    (hoAllowedSelect opts needed res).2.get "Vary"
      = ", access-control-request-headers" := by
  unfold hoAllowedSelect
  rw [if_pos (by rw [hA]; rfl)]
  exact setVary_acrh_of_unset res h

theorem hoAllowedSelect_vary_origin (opts : CorsOptions) (needed : String)
    (res : CafResponse) (hA : strOrListTruthy opts.allowedHeaders = false)
    (h : res.get "Vary" = ", origin") :
    (hoAllowedSelect opts needed res).2.get "Vary"
      = ", origin, access-control-request-headers" := by
  unfold hoAllowedSelect
  rw [if_pos (by rw [hA]; rfl)]
  exact setVary_acrh_of_origin res h

theorem hoAllowedSet_cr (p : StrOrList × CafResponse) :
    (hoAllowedSet p).closeRequested = p.2.closeRequested := by
  unfold hoAllowedSet
  split <;> rfl

theorem hoAllowedSet_get_other (p : StrOrList × CafResponse) (k : String)
    (h : strLower k ≠ "access-control-allow-headers") :
    (hoAllowedSet p).get k = p.2.get k := by
  unfold hoAllowedSet
  split
  · exact get_set_other _ _ _ _ (by rw [strLower_lit_acah]; exact h)
  · rfl

theorem hoAllowedSet_get_self (p : StrOrList × CafResponse) (hl : p.1.hasLength = true) :
    (hoAllowedSet p).get "Access-Control-Allow-Headers" = p.1.joined := by
  unfold hoAllowedSet
  rw [if_pos hl]
  exact get_set_self _ _ _ _ rfl

theorem hoMaxAge_cr (opts : CorsOptions) (res : CafResponse) :
    (hoMaxAge opts res).closeRequested = res.closeRequested := by
  unfold hoMaxAge
  split
  · next x n heq =>
      show (if toString n ≠ "" then res.set "Access-Control-Max-Age" (toString n)
          else res).closeRequested = res.closeRequested
      split <;> rfl
  · rfl

theorem hoMaxAge_get_other (opts : CorsOptions) (res : CafResponse) (k : String)
    (h : strLower k ≠ "access-control-max-age") :
    (hoMaxAge opts res).get k = res.get k := by
  unfold hoMaxAge
  split
  · next x n heq =>
      show (if toString n ≠ "" then res.set "Access-Control-Max-Age" (toString n)
          else res).get k = res.get k
      split
      · exact get_set_other _ _ _ _ (by rw [strLower_lit_acma]; exact h)
      · rfl
  · rfl

theorem hoMaxAge_get_self (opts : CorsOptions) (res : CafResponse) (n : Int)
    (hm : opts.maxAge = some n) (hs : toString n ≠ "") :
    (hoMaxAge opts res).get "Access-Control-Max-Age" = toString n := by
  unfold hoMaxAge
  rw [hm]
  show (if toString n ≠ "" then res.set "Access-Control-Max-Age" (toString n)
      else res).get "Access-Control-Max-Age" = toString n
  rw [if_pos hs]
  exact get_set_self _ _ _ _ rfl

/-- Characterization of the preflight finalization
`res.status(204).set('Content-Length', '0').end()`. -/
theorem endStep_spec (res2 : CafResponse) (hc2 : res2.closeRequested = false) :
    (CafResponse.endRes ((res2.status 204).set "Content-Length" "0") none).2 = none
    ∧ (CafResponse.endRes ((res2.status 204).set "Content-Length" "0") none).1.finished = true
    ∧ (CafResponse.endRes ((res2.status 204).set "Content-Length" "0") none).1.statusCode = 204
    ∧ (CafResponse.endRes ((res2.status 204).set "Content-Length" "0") none).1.get
        "Content-Length" = "0"
    ∧ ∀ k, strLower k ≠ "content-length" →
        (CafResponse.endRes ((res2.status 204).set "Content-Length" "0") none).1.get k
          = res2.get k := by
  have hc3 : ((res2.status 204).set "Content-Length" "0").closeRequested = false := hc2
  have he := endRes_ok ((res2.status 204).set "Content-Length" "0") none hc3
  refine ⟨he.1, he.2.1, ?_, ?_, ?_⟩
  · rw [he.2.2.2.1]
    rfl
  · rw [get_congr _ _ he.2.2.2.2.1]
    exact get_set_self _ _ _ _ rfl
  · intro k hk
    rw [get_congr _ _ he.2.2.2.2.1]
    rw [get_set_other _ _ _ _ (by rw [strLower_lit_cl]; exact hk)]
    rfl

theorem handleOptions_spec (opts : CorsOptions) (needed : String) (res : CafResponse)
    (hc : res.closeRequested = false) :
    (handleOptions opts needed res).2 = none
    ∧ (handleOptions opts needed res).1.finished = true
    ∧ (handleOptions opts needed res).1.statusCode = 204
    ∧ (handleOptions opts needed res).1.get "Content-Length" = "0"
    ∧ (handleOptions opts needed res).1.get "Access-Control-Allow-Methods"
        = (opts.methods.getD (StrOrList.str "GET,HEAD,PUT,PATCH,POST,DELETE")).joined
    ∧ (strOrListTruthy opts.allowedHeaders = true →
        ∀ x, opts.allowedHeaders = some x → x.hasLength = true →
          (handleOptions opts needed res).1.get "Access-Control-Allow-Headers" = x.joined)
    ∧ (strOrListTruthy opts.allowedHeaders = false → needed ≠ "" →
        (handleOptions opts needed res).1.get "Access-Control-Allow-Headers" = needed)
    ∧ (strOrListTruthy opts.allowedHeaders = false → res.get "Vary" = "" →
        (handleOptions opts needed res).1.get "Vary" = ", access-control-request-headers")
    ∧ (strOrListTruthy opts.allowedHeaders = false → res.get "Vary" = ", origin" →
        (handleOptions opts needed res).1.get "Vary"
          = ", origin, access-control-request-headers")
    ∧ (∀ n : Int, opts.maxAge = some n → toString n ≠ "" →
        (handleOptions opts needed res).1.get "Access-Control-Max-Age" = toString n) := by
  have hcm : (hoMaxAge opts
      (hoAllowedSet (hoAllowedSelect opts needed (hoMethods opts res)))).closeRequested
        = false := by
    rw [hoMaxAge_cr, hoAllowedSet_cr, hoAllowedSelect_cr, hoMethods_cr]
    exact hc
  have hb := endStep_spec _ hcm
  simp only [handleOptions]
  refine ⟨hb.1, hb.2.1, hb.2.2.1, hb.2.2.2.1, ?_, ?_, ?_, ?_, ?_, ?_⟩
  · rw [hb.2.2.2.2 "Access-Control-Allow-Methods" (by decide)]
    rw [hoMaxAge_get_other _ _ _ (by decide), hoAllowedSet_get_other _ _ (by decide),
      hoAllowedSelect_get_other _ _ _ _ (by decide)]
    exact hoMethods_get_self opts res
  · intro hA x hx hxl
    have hfst := hoAllowedSelect_fst_truthy opts needed (hoMethods opts res) hA
    have hl : (hoAllowedSelect opts needed (hoMethods opts res)).1.hasLength = true := by
      rw [hfst, hx]
      exact hxl
    rw [hb.2.2.2.2 "Access-Control-Allow-Headers" (by decide)]
    rw [hoMaxAge_get_other _ _ _ (by decide), hoAllowedSet_get_self _ hl, hfst, hx]
    rfl
  · intro hA hn
    have hfst := hoAllowedSelect_fst_falsy opts needed (hoMethods opts res) hA
    have hl : (hoAllowedSelect opts needed (hoMethods opts res)).1.hasLength = true := by
      rw [hfst]
      simp [StrOrList.hasLength, hn]
    rw [hb.2.2.2.2 "Access-Control-Allow-Headers" (by decide)]
    rw [hoMaxAge_get_other _ _ _ (by decide), hoAllowedSet_get_self _ hl, hfst]
    rfl
  · intro hA hvary
    rw [hb.2.2.2.2 "Vary" (by decide)]
    rw [hoMaxAge_get_other _ _ _ (by decide), hoAllowedSet_get_other _ _ (by decide)]
    apply hoAllowedSelect_vary_unset _ _ _ hA
    rw [hoMethods_get_other _ _ _ (by decide)]
    exact hvary
  · intro hA hvary
    rw [hb.2.2.2.2 "Vary" (by decide)]
    rw [hoMaxAge_get_other _ _ _ (by decide), hoAllowedSet_get_other _ _ (by decide)]
    apply hoAllowedSelect_vary_origin _ _ _ hA
    rw [hoMethods_get_other _ _ _ (by decide)]
    exact hvary
  · intro n hm hs
    rw [hb.2.2.2.2 "Access-Control-Max-Age" (by decide)]
    exact hoMaxAge_get_self _ _ n hm hs

/-- C8: for a request with CORS configured and a non-empty `Origin`
header whose method is `OPTIONS`, the dispatcher short-circuits route
dispatch entirely (no route handler is selected), finalizing the
response as 204 with `Content-Length: 0`; `Access-Control-Allow-Methods`
carries the configured list (joined with commas, defaulting to
`GET,HEAD,PUT,PATCH,POST,DELETE`); `Access-Control-Allow-Headers`
carries the configured allow-list when truthy, else it echoes the
request's `Access-Control-Request-Headers` value when non-empty, and a
`Vary` entry for `access-control-request-headers` is added;
`Access-Control-Max-Age` is set when configured. -/
theorem claim_preflight {H : Type} (api : API H) (opts : CorsOptions)
    (reqHeaders : List (String × String)) (path origin : String)
    (hOrigin : headersGet reqHeaders "origin" = some origin) (hne : origin ≠ "") :
    (triggerStart api (some opts) "OPTIONS" path reqHeaders).2 = none
    ∧ (triggerStart api (some opts) "OPTIONS" path reqHeaders).1.finished = true
    ∧ (triggerStart api (some opts) "OPTIONS" path reqHeaders).1.statusCode = 204
    ∧ (triggerStart api (some opts) "OPTIONS" path reqHeaders).1.get "Content-Length" = "0"
    ∧ (triggerStart api (some opts) "OPTIONS" path reqHeaders).1.get
        "Access-Control-Allow-Methods"
        = (opts.methods.getD (StrOrList.str "GET,HEAD,PUT,PATCH,POST,DELETE")).joined
    ∧ (strOrListTruthy opts.allowedHeaders = true →
        ∀ x, opts.allowedHeaders = some x → x.hasLength = true →
          (triggerStart api (some opts) "OPTIONS" path reqHeaders).1.get
            "Access-Control-Allow-Headers" = x.joined)
    ∧ (strOrListTruthy opts.allowedHeaders = false →
        ∀ nh, headersGet reqHeaders "access-control-request-headers" = some nh → nh ≠ "" →
          (triggerStart api (some opts) "OPTIONS" path reqHeaders).1.get
            "Access-Control-Allow-Headers" = nh)
    ∧ (strOrListTruthy opts.allowedHeaders = false →
        (triggerStart api (some opts) "OPTIONS" path reqHeaders).1.get "Vary"
            = ", access-control-request-headers"
          ∨ (triggerStart api (some opts) "OPTIONS" path reqHeaders).1.get "Vary"
            = ", origin, access-control-request-headers")
    ∧ (∀ n : Int, opts.maxAge = some n → toString n ≠ "" →
        (triggerStart api (some opts) "OPTIONS" path reqHeaders).1.get
          "Access-Control-Max-Age" = toString n) := by
  have hic : (initCors opts origin ({} : CafResponse)).closeRequested = false := by
    rw [(initCors_flags opts origin ({} : CafResponse)).1]
  have hspec := handleOptions_spec opts
    ((headersGet reqHeaders "access-control-request-headers").getD "")
    (initCors opts origin ({} : CafResponse)) hic
  have hcors : cors (some opts) "OPTIONS" reqHeaders ({} : CafResponse)
      = handleOptions opts ((headersGet reqHeaders "access-control-request-headers").getD "")
          (initCors opts origin ({} : CafResponse)) := by
    simp only [cors, hOrigin, Option.getD_some]
    rw [if_pos hne]
    simp
  have hred : triggerStart api (some opts) "OPTIONS" path reqHeaders
      = ((handleOptions opts
          ((headersGet reqHeaders "access-control-request-headers").getD "")
          (initCors opts origin ({} : CafResponse))).1, none) := by
    simp only [triggerStart, hcors]
    rw [pair_eta _ none hspec.1]
    rw [if_pos hspec.2.1]
  rw [hred]
  refine ⟨rfl, hspec.2.1, hspec.2.2.1, hspec.2.2.2.1, hspec.2.2.2.2.1,
    hspec.2.2.2.2.2.1, ?_, ?_, hspec.2.2.2.2.2.2.2.2.2⟩
  · intro hA nh hnh hne2
    have hx := hspec.2.2.2.2.2.2.1 hA
    rw [hnh] at hx
    rw [hnh]
    simp only [Option.getD_some] at hx ⊢
    exact hx hne2
  · intro hA
    rcases initCors_vary opts origin ({} : CafResponse) rfl with hv | hv
    · exact Or.inl (hspec.2.2.2.2.2.2.2.1 hA hv)
    · exact Or.inr (hspec.2.2.2.2.2.2.2.2.1 hA hv)

/-- Witness for C8: CORS configured with `maxAge 600`, an `OPTIONS`
request with `Origin` and `Access-Control-Request-Headers: X-Foo`. -/
theorem claim_preflight_witness :
    (triggerStart ({} : API Nat) (some { maxAge := some 600 }) "OPTIONS" "/x"
        [("origin", "http://o.com"), ("access-control-request-headers", "X-Foo")]).2 = none
    ∧ (triggerStart ({} : API Nat) (some { maxAge := some 600 }) "OPTIONS" "/x"
        [("origin", "http://o.com"), ("access-control-request-headers", "X-Foo")]).1.finished
        = true
    ∧ (triggerStart ({} : API Nat) (some { maxAge := some 600 }) "OPTIONS" "/x"
        [("origin", "http://o.com"), ("access-control-request-headers", "X-Foo")]).1.statusCode
        = 204
    ∧ (triggerStart ({} : API Nat) (some { maxAge := some 600 }) "OPTIONS" "/x"
        [("origin", "http://o.com"), ("access-control-request-headers", "X-Foo")]).1.get
        "Content-Length" = "0"
    ∧ (triggerStart ({} : API Nat) (some { maxAge := some 600 }) "OPTIONS" "/x"
        [("origin", "http://o.com"), ("access-control-request-headers", "X-Foo")]).1.get
        "Access-Control-Allow-Methods" = "GET,HEAD,PUT,PATCH,POST,DELETE"
    ∧ (triggerStart ({} : API Nat) (some { maxAge := some 600 }) "OPTIONS" "/x"
        [("origin", "http://o.com"), ("access-control-request-headers", "X-Foo")]).1.get
        "Access-Control-Allow-Headers" = "X-Foo"
    ∧ ((triggerStart ({} : API Nat) (some { maxAge := some 600 }) "OPTIONS" "/x"
        [("origin", "http://o.com"), ("access-control-request-headers", "X-Foo")]).1.get
          "Vary" = ", access-control-request-headers"
      ∨ (triggerStart ({} : API Nat) (some { maxAge := some 600 }) "OPTIONS" "/x"
        [("origin", "http://o.com"), ("access-control-request-headers", "X-Foo")]).1.get
          "Vary" = ", origin, access-control-request-headers")
    ∧ (triggerStart ({} : API Nat) (some { maxAge := some 600 }) "OPTIONS" "/x"
        [("origin", "http://o.com"), ("access-control-request-headers", "X-Foo")]).1.get
        "Access-Control-Max-Age" = toString (600 : Int) :=
  ⟨(claim_preflight ({} : API Nat) { maxAge := some 600 }
      [("origin", "http://o.com"), ("access-control-request-headers", "X-Foo")]
      "/x" "http://o.com" (by decide) (by decide)).1,
   (claim_preflight ({} : API Nat) { maxAge := some 600 }
      [("origin", "http://o.com"), ("access-control-request-headers", "X-Foo")]
      "/x" "http://o.com" (by decide) (by decide)).2.1,
   (claim_preflight ({} : API Nat) { maxAge := some 600 }
      [("origin", "http://o.com"), ("access-control-request-headers", "X-Foo")]
      "/x" "http://o.com" (by decide) (by decide)).2.2.1,
   (claim_preflight ({} : API Nat) { maxAge := some 600 }
      [("origin", "http://o.com"), ("access-control-request-headers", "X-Foo")]
      "/x" "http://o.com" (by decide) (by decide)).2.2.2.1,
   (claim_preflight ({} : API Nat) { maxAge := some 600 }
      [("origin", "http://o.com"), ("access-control-request-headers", "X-Foo")]
      "/x" "http://o.com" (by decide) (by decide)).2.2.2.2.1,
   (claim_preflight ({} : API Nat) { maxAge := some 600 }
      [("origin", "http://o.com"), ("access-control-request-headers", "X-Foo")]
      "/x" "http://o.com" (by decide) (by decide)).2.2.2.2.2.2.1 (by decide)
      "X-Foo" (by decide) (by decide),
   (claim_preflight ({} : API Nat) { maxAge := some 600 }
      [("origin", "http://o.com"), ("access-control-request-headers", "X-Foo")]
      "/x" "http://o.com" (by decide) (by decide)).2.2.2.2.2.2.2.1 (by decide),
   (claim_preflight ({} : API Nat) { maxAge := some 600 }
      [("origin", "http://o.com"), ("access-control-request-headers", "X-Foo")]
      "/x" "http://o.com" (by decide) (by decide)).2.2.2.2.2.2.2.2 600 rfl (by decide)⟩
